import Mathlib

/-!
# NetworkProgrammingLib: sockets, TCP client/server, daytime protocol

A shallow embedding of `socket.cpp`, `clientTCP.cpp`, `serverTCP.cpp`,
`serverTCPdaytime.cpp` and `clientTCPdaytime.cpp`.

The operating system is an oracle `os` that answers every system call from the
history of events so far; every call the program makes and every line it prints
is appended to a trace.  Member functions take the object state and the trace and
return the outcome together with the new state and the new trace.
-/

namespace bh

/-! ## Environment: system calls, replies, traces -/

/-- The C `struct sockaddr_in`: family, port and address as stored (network order). -/
structure SockAddrIn where
  sin_family : Int
  sin_port : Nat
  sin_addr : Nat
deriving DecidableEq, Repr

/-- The system calls the library makes. -/
inductive OsCall where
  | socket (family type protocol : Int)
  | close (fd : Int)
  | bind (fd : Int) (myaddr : SockAddrIn)
  | listen (fd : Int) (backlog : Int)
  | accept (fd : Int)
  | connect (fd : Int) (servaddr : SockAddrIn)
  | read (fd : Int) (count : Nat)
  | write (fd : Int) (bytes : List Char)
  | time
deriving DecidableEq, Repr

/-- What the operating system answers: the `int` result, the text `strerror(errno)`
gives right after the call, the peer address stored by `accept`, and the bytes
stored by `read`. -/
structure OsReply where
  ret : Int
  reason : String
  peer : SockAddrIn
  data : List Char
deriving DecidableEq, Repr

/-- One observable step: a system call with its reply, or text sent to
`std::cout` / `std::cerr`. -/
inductive Event where
  | sys (call : OsCall) (reply : OsReply)
  | cout (text : String)
  | cerr (text : String)
deriving DecidableEq, Repr

/-- Chronological list of events (oldest first). -/
abbrev Trace := List Event

/-- The operating system: its reply to a call may depend on everything that
happened before. -/
abbrev Os := Trace → OsCall → OsReply

/-- How a C++ call ends: normal return, a propagating `std::runtime_error`, or
`std::terminate` (an exception leaving a destructor). -/
inductive Outcome (α : Type) where
  | ok (a : α)
  | throws (what : String)
  | terminate
deriving DecidableEq, Repr

/-- Perform one system call: ask the oracle and record call and reply. -/
def syscall (os : Os) (c : OsCall) (t : Trace) : OsReply × Trace :=
  (os t c, t ++ [Event.sys c (os t c)])

/-! ## socket.cpp -/

/-- The class `Socket`: the single data member `m_sockfd`. -/
structure Socket where
  m_sockfd : Int
deriving DecidableEq, Repr

/-- `Socket::Socket(int family, int type, int protocol)`. -/
def Socket.ctor (os : Os) (family type protocol : Int) (t : Trace) :
    Outcome Socket × Trace :=
  let (r, t1) := syscall os (OsCall.socket family type protocol) t
  if r.ret < 0 then
    (Outcome.throws ("Socket creation failed: " ++ r.reason), t1)
  else
    (Outcome.ok { m_sockfd := r.ret }, t1)

/-- `Socket::close()`. -/
def Socket.close (os : Os) (self : Socket) (t : Trace) : Outcome Unit × Socket × Trace :=
  if self.m_sockfd ≠ -1 then
    let (r, t1) := syscall os (OsCall.close self.m_sockfd) t
    if r.ret < 0 then
      (Outcome.throws ("Socket close failed: " ++ r.reason), self, t1)
    else
      (Outcome.ok (), { m_sockfd := -1 }, t1)
  else
    (Outcome.ok (), self, t)

/-- `Socket::~Socket()`.  The destructor is implicitly `noexcept`, so an exception
raised by `close()` inside it ends in `std::terminate`. -/
def Socket.dtor (os : Os) (self : Socket) (t : Trace) : Outcome Unit × Socket × Trace :=
  if self.m_sockfd ≠ -1 then
    match Socket.close os self t with
    | (Outcome.ok u, s1, t1) => (Outcome.ok u, s1, t1)
    | (_, s1, t1) => (Outcome.terminate, s1, t1)
  else
    (Outcome.ok (), self, t)

/-- `Socket::getDescriptor() const`. -/
def Socket.getDescriptor (self : Socket) : Int :=
  self.m_sockfd

/-- The caller invokes `close()` `n` times in a row, catching whatever a call
throws; returns the socket and the trace after the last call. -/
def closeTimes (os : Os) : Nat → Socket → Trace → Socket × Trace
  | 0, s, t => (s, t)
  | n + 1, s, t =>
    let res := Socket.close os s t
    closeTimes os n res.2.1 res.2.2

/-- A whole `Socket` lifetime: construction, `n` explicit `close()` calls whose
exceptions the caller catches, then destruction. -/
def socketLifecycle (os : Os) (family type protocol : Int) (n : Nat) (t : Trace) :
    Outcome Unit × Option Socket × Trace :=
  match Socket.ctor os family type protocol t with
  | (Outcome.ok s, t1) =>
    let (s2, t2) := closeTimes os n s t1
    let res := Socket.dtor os s2 t2
    (res.1, some res.2.1, res.2.2)
  | (Outcome.throws e, t1) => (Outcome.throws e, none, t1)
  | (Outcome.terminate, t1) => (Outcome.terminate, none, t1)

/-! ## The platform -/

/-- Header constants and C library functions the code uses but does not define. -/
structure Libc where
  AF_INET : Int
  SOCK_STREAM : Int
  INADDR_ANY : Nat
  htons : Nat → Nat
  htonl : Nat → Nat
  ntohs : Nat → Nat
  /-- Text to binary address: the `int` result and the address it stores. -/
  inet_pton : Int → String → Int × Nat
  /-- Binary address to text. -/
  inet_ntop : Int → Nat → String
  /-- Calendar text of a `time_t`, as a C string without its terminator. -/
  ctime : Int → List Char

/-- `#define LISTENQ 2` (serverTCP.hpp). -/
def LISTENQ : Int := 2

/-- The C string terminator. -/
def NUL : Char := Char.ofNat 0

/-- The characters of the C string stored at the start of a buffer: everything
before the first terminator. -/
def cstr (buf : List Char) : List Char :=
  buf.takeWhile (fun c => c != NUL)

/-- C `strlen`. -/
def strlen (buf : List Char) : Nat :=
  (cstr buf).length

/-- The bytes `snprintf(buff, size, "%.24s\r\n", s)` stores in `buff`, terminator
included: at most 24 characters of `s`, CR, LF, cut to `size - 1` characters. -/
def snprintf_24s_crlf (size : Nat) (s : List Char) : List Char :=
  ((cstr s).take 24 ++ ['\r', '\n']).take (size - 1) ++ [NUL]

/-! ## clientTCP.cpp -/

/-- The class `ClientTCP`. -/
structure ClientTCP where
  m_socket : Socket
deriving DecidableEq, Repr

/-- `ClientTCP::ClientTCP()`. -/
def ClientTCP.ctor (L : Libc) (os : Os) (t : Trace) : Outcome ClientTCP × Trace :=
  match Socket.ctor os L.AF_INET L.SOCK_STREAM 0 t with
  | (Outcome.ok s, t1) => (Outcome.ok { m_socket := s }, t1)
  | (Outcome.throws e, t1) => (Outcome.throws e, t1)
  | (Outcome.terminate, t1) => (Outcome.terminate, t1)

/-- `ClientTCP::connect(const char* ip, uint16_t port)`. -/
def ClientTCP.connect (L : Libc) (os : Os) (self : ClientTCP) (ip : String) (port : Nat)
    (t : Trace) : Outcome Unit × ClientTCP × Trace :=
  let servaddr : SockAddrIn := { sin_family := 0, sin_port := 0, sin_addr := 0 }
  let servaddr := { servaddr with sin_family := L.AF_INET }
  let servaddr := { servaddr with sin_port := L.htons port }
  let (rc, addr) := L.inet_pton L.AF_INET ip
  if rc ≤ 0 then
    (Outcome.throws ("Invalid IP address: " ++ ip), self, t)
  else
    let servaddr := { servaddr with sin_addr := addr }
    let (r, t1) := syscall os (OsCall.connect self.m_socket.getDescriptor servaddr) t
    if r.ret < 0 then
      (Outcome.throws ("TCPClient connect error: " ++ r.reason), self, t1)
    else
      (Outcome.ok (), self, t1)

/-! ## serverTCP.cpp -/

/-- The class `ServerTCP`. -/
structure ServerTCP where
  m_socket : Socket
  m_port : Nat
deriving DecidableEq, Repr

/-- `ServerTCP::bind(const struct sockaddr*, socklen_t)`. -/
def ServerTCP.bind (os : Os) (self : ServerTCP) (myaddr : SockAddrIn) (t : Trace) :
    Outcome Unit × ServerTCP × Trace :=
  let (r, t1) := syscall os (OsCall.bind self.m_socket.getDescriptor myaddr) t
  if r.ret < 0 then
    (Outcome.throws ("TCPServer bind error: " ++ r.reason), self, t1)
  else
    (Outcome.ok (), self, t1)

/-- `ServerTCP::listen(int backlog)`. -/
def ServerTCP.listen (os : Os) (self : ServerTCP) (backlog : Int) (t : Trace) :
    Outcome Unit × ServerTCP × Trace :=
  let (r, t1) := syscall os (OsCall.listen self.m_socket.getDescriptor backlog) t
  if r.ret < 0 then
    (Outcome.throws ("TCPServer listen error: " ++ r.reason), self, t1)
  else
    (Outcome.ok (), self, t1)

/-- `ServerTCP::accept(struct sockaddr*, socklen_t*)`: the returned descriptor,
paired with the peer address the OS stored through `cliaddr`. -/
def ServerTCP.accept (os : Os) (self : ServerTCP) (t : Trace) :
    Outcome (Int × SockAddrIn) × ServerTCP × Trace :=
  let (r, t1) := syscall os (OsCall.accept self.m_socket.getDescriptor) t
  let connfd := r.ret
  if connfd < 0 then
    (Outcome.throws ("TCPServer accept error: " ++ r.reason), self, t1)
  else
    (Outcome.ok (connfd, r.peer), self, t1)

/-- `ServerTCP::getPort() const`. -/
def ServerTCP.getPort (self : ServerTCP) : Nat :=
  self.m_port

/-- `ServerTCP::connectionServiced()`. -/
def ServerTCP.connectionServiced (t : Trace) : Trace :=
  t ++ [Event.cout "Connection serviced.\n"]

/-- `ServerTCP::logConnection(const struct sockaddr_in&)`. -/
def ServerTCP.logConnection (L : Libc) (cliaddr : SockAddrIn) (t : Trace) : Trace :=
  let client_ip := L.inet_ntop L.AF_INET cliaddr.sin_addr
  let client_port := L.ntohs cliaddr.sin_port
  t ++ [Event.cout ("Connection from " ++ client_ip ++ ":" ++ toString client_port ++ "\n")]

/-- The default `ServerTCP::onServerStart()`: empty body. -/
def ServerTCP.onServerStart (t : Trace) : Trace :=
  t

/-- Leaving the constructor body by an exception `e` destroys the already built
member `m_socket`; an exception leaving that destructor ends in `std::terminate`. -/
def ServerTCP.unwind (os : Os) (self : ServerTCP) (e : String) (t : Trace) :
    Outcome ServerTCP × Trace :=
  match Socket.dtor os self.m_socket t with
  | (Outcome.ok _, _, t1) => (Outcome.throws e, t1)
  | (_, _, t1) => (Outcome.terminate, t1)

/-- `ServerTCP::ServerTCP(uint16_t port)`. -/
def ServerTCP.ctor (L : Libc) (os : Os) (port : Nat) (t : Trace) : Outcome ServerTCP × Trace :=
  match Socket.ctor os L.AF_INET L.SOCK_STREAM 0 t with
  | (Outcome.ok sock, t1) =>
    let self : ServerTCP := { m_socket := sock, m_port := port }
    let servaddr : SockAddrIn := { sin_family := 0, sin_port := 0, sin_addr := 0 }
    let servaddr := { servaddr with sin_family := L.AF_INET }
    let servaddr := { servaddr with sin_addr := L.htonl L.INADDR_ANY }
    let servaddr := { servaddr with sin_port := L.htons port }
    match ServerTCP.bind os self servaddr t1 with
    | (Outcome.ok _, self1, t2) =>
      match ServerTCP.listen os self1 LISTENQ t2 with
      | (Outcome.ok _, self2, t3) => (Outcome.ok self2, t3)
      | (Outcome.throws e, self2, t3) => ServerTCP.unwind os self2 e t3
      | (Outcome.terminate, _, t3) => (Outcome.terminate, t3)
    | (Outcome.throws e, self1, t2) => ServerTCP.unwind os self1 e t2
    | (Outcome.terminate, _, t2) => (Outcome.terminate, t2)
  | (Outcome.throws e, t1) => (Outcome.throws e, t1)
  | (Outcome.terminate, t1) => (Outcome.terminate, t1)

/-! ## serverTCPdaytime.cpp -/

/-- `ServerTCPdaytime::onServerStart()`. -/
def ServerTCPdaytime.onServerStart (t : Trace) : Trace :=
  t ++ [Event.cout "Server Daytime is listening...\n"]

/-- The bytes handed to `::write` for calendar text `s`: `buff` after the
`snprintf`, up to `strlen(buff)`. -/
def ServerTCPdaytime.line (s : List Char) : List Char :=
  let buff := snprintf_24s_crlf 64 s
  buff.take (strlen buff)

/-- One pass through the body of the `for (;;)` loop of `ServerTCPdaytime::run()`. -/
def ServerTCPdaytime.runBody (L : Libc) (os : Os) (self : ServerTCP) (t : Trace) :
    Outcome Unit × ServerTCP × Trace :=
  match ServerTCP.accept os self t with
  | (Outcome.ok (connfd, cliaddr), self1, t1) =>
    let t2 := ServerTCP.logConnection L cliaddr t1
    let (rt, t3) := syscall os OsCall.time t2
    let ticks := rt.ret
    let (_, t4) := syscall os (OsCall.write connfd (ServerTCPdaytime.line (L.ctime ticks))) t3
    let (_, t5) := syscall os (OsCall.close connfd) t4
    let t6 := ServerTCP.connectionServiced t5
    (Outcome.ok (), self1, t6)
  | (Outcome.throws e, self1, t1) => (Outcome.throws e, self1, t1)
  | (Outcome.terminate, self1, t1) => (Outcome.terminate, self1, t1)

/-- `ServerTCPdaytime::run()`, observed for at most `fuel` passes of its endless
loop: `none` means the loop is still running after `fuel` passes. -/
def ServerTCPdaytime.run (L : Libc) (os : Os) :
    Nat → ServerTCP → Trace → Option (Outcome Unit) × ServerTCP × Trace
  | 0, self, t => (none, self, t)
  | fuel + 1, self, t =>
    match ServerTCPdaytime.runBody L os self t with
    | (Outcome.ok _, self1, t1) => ServerTCPdaytime.run L os fuel self1 t1
    | (Outcome.throws e, self1, t1) => (some (Outcome.throws e), self1, t1)
    | (Outcome.terminate, self1, t1) => (some Outcome.terminate, self1, t1)

/-! ## clientTCPdaytime.cpp -/

/-- `ClientTCPdaytime::run()`.  `recvline` is the (indeterminate) initial content of
the local array `char recvline[128]`; the result is its final content and the
trace, or `none` when the store `recvline[n]` would fall outside the array. -/
def ClientTCPdaytime.run (os : Os) (self : ClientTCP) (recvline : List Char) (t : Trace) :
    Option (List Char × Trace) :=
  let (r, t1) := syscall os (OsCall.read self.m_socket.getDescriptor (128 - 1)) t
  let n := r.ret
  if n < 0 then
    some (recvline, t1 ++ [Event.cerr "read error\n"])
  else
    let stored := r.data.take n.toNat
    let recvline1 := stored ++ recvline.drop stored.length
    if n.toNat < 128 then
      let recvline2 := recvline1.set n.toNat NUL
      some (recvline2,
        t1 ++ [Event.cout ("Daytime server response: " ++ String.mk (cstr recvline2))])
    else
      none

/-! ## Reading a trace -/

/-- The descriptor a successful `socket` or `accept` call hands out. -/
def Event.opens : Event → Option Int
  | Event.sys (OsCall.socket _ _ _) r => if 0 ≤ r.ret then some r.ret else none
  | Event.sys (OsCall.accept _) r => if 0 ≤ r.ret then some r.ret else none
  | _ => none

/-- The descriptor a successful `accept` call hands out. -/
def Event.accepts : Event → Option Int
  | Event.sys (OsCall.accept _) r => if 0 ≤ r.ret then some r.ret else none
  | _ => none

/-- The descriptor a `::close` call is made on, whatever the OS answers. -/
def Event.closeCall : Event → Option Int
  | Event.sys (OsCall.close fd) _ => some fd
  | _ => none

/-- The descriptor a successful `::close` call releases; a refused `::close`
releases nothing. -/
def Event.closes : Event → Option Int
  | Event.sys (OsCall.close fd) r => if 0 ≤ r.ret then some fd else none
  | _ => none

/-- Bookkeeping of open descriptors over one event: a descriptor handed out (as
selected by `gives`) is open until a `::close` of it succeeds. -/
def openStep (gives : Event → Option Int) (acc : List Int) (e : Event) : List Int :=
  match e.closes with
  | some fd => acc.erase fd
  | none =>
    match gives e with
    | some fd => acc ++ [fd]
    | none => acc

/-- Descriptors open at the end of a trace. -/
def openFds (t : Trace) : List Int :=
  t.foldl (openStep Event.opens) []

/-- Descriptors returned by `accept` that are open at the end of a trace. -/
def openAccepted (t : Trace) : List Int :=
  t.foldl (openStep Event.accepts) []

/-- Bookkeeping of accepted descriptors that still await their `::close` call: a
descriptor returned by `accept` is pending until `::close` is next called on it,
whatever that call reports. -/
def pendingStep (acc : List Int) (e : Event) : List Int :=
  match e.closeCall with
  | some fd => acc.erase fd
  | none =>
    match e.accepts with
    | some fd => acc ++ [fd]
    | none => acc

/-- Run the bookkeeping of pending accepted descriptors over further events. -/
def pendingFrom (acc : List Int) (es : List Event) : List Int :=
  es.foldl pendingStep acc

/-- Accepted descriptors on which `::close` has not yet been called at the end of
a trace. -/
def pendingAccepted (t : Trace) : List Int :=
  pendingFrom [] t

/-- The event is not a refused `::close`. -/
def closeNotRefused : Event → Bool
  | Event.sys (OsCall.close _) r => decide (0 ≤ r.ret)
  | _ => true

/-- Every `::close` call in the trace was reported as successful. -/
def closesSucceed (t : Trace) : Bool :=
  t.all closeNotRefused

/-! ## Predicates on events and traces -/

/-- The event is a `::close(fd)` call. -/
def isClose (fd : Int) : Event → Bool
  | Event.sys (OsCall.close d) _ => d == fd
  | _ => false

/-- The event is a `::close(fd)` call that the OS reported as successful. -/
def isGoodClose (fd : Int) : Event → Bool
  | Event.sys (OsCall.close d) r => d == fd && decide (0 ≤ r.ret)
  | _ => false

/-- Number of `::close(fd)` calls in a trace. -/
def closeCalls (fd : Int) (t : Trace) : Nat :=
  t.countP (isClose fd)

/-- Number of `::close(fd)` calls in a trace that the OS reported as successful. -/
def closeSuccesses (fd : Int) (t : Trace) : Nat :=
  t.countP (isGoodClose fd)

/-- The event is a `::close(fd)` call that the OS reported as failed. -/
def isFailedClose (fd : Int) : Event → Bool
  | Event.sys (OsCall.close d) r => d == fd && decide (r.ret < 0)
  | _ => false

/-- The event is an `accept` system call. -/
def isAcceptCall : Event → Bool
  | Event.sys (OsCall.accept _) _ => true
  | _ => false

/-- The events of one serviced connection on listening descriptor `lfd`, for given
OS replies: `accept`, the log line, the clock, one `write` of the daytime line to
the accepted descriptor, `::close` of the accepted descriptor, the serviced line. -/
def passOf (L : Libc) (lfd : Int) (ra rt rw rc : OsReply) : List Event :=
  [Event.sys (OsCall.accept lfd) ra,
   Event.cout ("Connection from " ++ L.inet_ntop L.AF_INET ra.peer.sin_addr ++ ":"
      ++ toString (L.ntohs ra.peer.sin_port) ++ "\n"),
   Event.sys OsCall.time rt,
   Event.sys (OsCall.write ra.ret (ServerTCPdaytime.line (L.ctime rt.ret))) rw,
   Event.sys (OsCall.close ra.ret) rc,
   Event.cout "Connection serviced.\n"]

/-- The events are exactly those of one serviced connection whose `accept`
succeeded. -/
def isIteration (L : Libc) (lfd : Int) (es : List Event) : Bool :=
  match es with
  | [Event.sys (OsCall.accept _) ra, _, Event.sys OsCall.time rt,
      Event.sys (OsCall.write _ _) rw, Event.sys (OsCall.close _) rc, _] =>
    decide (0 ≤ ra.ret) && decide (es = passOf L lfd ra rt rw rc)
  | _ => false

/-- The calendar text has the fixed-width form: 24 characters that are letters,
digits, blanks or colons, followed by a newline (`"Www Mmm dd hh:mm:ss yyyy\n"`). -/
def isCtimeText (s : List Char) : Bool :=
  s.length == 25 &&
    (s.take 24).all (fun c => c.isAlphanum || c == ' ' || c == ':') &&
    s.drop 24 == ['\n']

/-- An operating system that refuses `accept` on a descriptor that is not open
(the `EBADF` rule). -/
def RejectsClosed (os : Os) : Prop :=
  ∀ (t : Trace) (fd : Int), fd ∉ openFds t → (os t (OsCall.accept fd)).ret < 0

/-! ## Concrete operating systems used to exercise the code -/

/-- A reply that carries only a result. -/
def reply (ret : Int) : OsReply :=
  { ret := ret, reason := "", peer := { sin_family := 0, sin_port := 0, sin_addr := 0 },
    data := [] }

/-- A failed call: result `-1` and the OS reason. -/
def failure (reason : String) : OsReply :=
  { ret := -1, reason := reason, peer := { sin_family := 0, sin_port := 0, sin_addr := 0 },
    data := [] }

/-- An OS on which `socket` hands out descriptor 3 and every `::close` fails. -/
def osCloseFails : Os := fun _ c =>
  match c with
  | OsCall.socket _ _ _ => reply 3
  | OsCall.close _ => failure "Input/output error"
  | _ => reply 0

/-- An OS on which `socket` hands out descriptor 3, the first `::close` of a
descriptor fails and later ones succeed. -/
def osCloseFailsOnce : Os := fun t c =>
  match c with
  | OsCall.socket _ _ _ => reply 3
  | OsCall.close fd => if closeCalls fd t = 0 then failure "Interrupted system call" else reply 0
  | _ => reply 0

/-- An OS on which `socket` hands out descriptor 3 and every other call succeeds
with result 0. -/
def osFine : Os := fun _ c =>
  match c with
  | OsCall.socket _ _ _ => reply 3
  | _ => reply 0

/-- An OS on which `socket` hands out descriptor 3 and `bind` fails (port in use);
`::close` succeeds. -/
def osBindFails : Os := fun _ c =>
  match c with
  | OsCall.socket _ _ _ => reply 3
  | OsCall.bind _ _ => failure "Address already in use"
  | _ => reply 0

/-- An OS on which `socket` hands out descriptor 3, `bind` fails and `::close`
fails too. -/
def osBindAndCloseFail : Os := fun _ c =>
  match c with
  | OsCall.socket _ _ _ => reply 3
  | OsCall.bind _ _ => failure "Address already in use"
  | OsCall.close _ => failure "Input/output error"
  | _ => reply 0

/-- An OS that follows the `EBADF` rule: `accept` on an open descriptor hands out
descriptor 4, on any other descriptor it fails. -/
def osListener : Os := fun t c =>
  match c with
  | OsCall.socket _ _ _ => reply 3
  | OsCall.accept fd => if fd ∈ openFds t then reply 4 else failure "Bad file descriptor"
  | _ => reply 0

/-- An OS that lets one client in: the first `accept` hands out descriptor 4, every
later one is interrupted; the clock reads 739600000. -/
def osOneClient : Os := fun t c =>
  match c with
  | OsCall.socket _ _ _ => reply 3
  | OsCall.accept _ => if t.any isAcceptCall then failure "Interrupted system call" else reply 4
  | OsCall.time => reply 739600000
  | _ => reply 0

/-- An OS whose `read` delivers the 26 bytes of a daytime line. -/
def osReadsLine : Os := fun _ c =>
  match c with
  | OsCall.read _ _ =>
    { ret := 26, reason := "", peer := { sin_family := 0, sin_port := 0, sin_addr := 0 },
      data := "Wed Jun  9 04:26:40 1993\r\n".toList }
  | _ => reply 0

/-- An OS whose `read` delivers the 5 bytes `a b NUL c d`. -/
def osReadsNul : Os := fun _ c =>
  match c with
  | OsCall.read _ _ =>
    { ret := 5, reason := "", peer := { sin_family := 0, sin_port := 0, sin_addr := 0 },
      data := ['a', 'b', NUL, 'c', 'd'] }
  | _ => reply 0

/-- An OS whose `read` fails. -/
def osReadFails : Os := fun _ c =>
  match c with
  | OsCall.read _ _ => failure "Connection reset by peer"
  | _ => reply 0

/-- An OS that refuses every `::close`: the n-th `accept` hands out descriptor
`4 + n` (counting from 0); the clock reads 739600000. -/
def osClosesRefused : Os := fun t c =>
  match c with
  | OsCall.socket _ _ _ => reply 3
  | OsCall.accept _ => reply (4 + (t.countP isAcceptCall : Nat))
  | OsCall.close _ => failure "Input/output error"
  | OsCall.time => reply 739600000
  | _ => reply 0

/-- A server listening on descriptor 3, port 8080. -/
def srv3 : ServerTCP :=
  { m_socket := { m_sockfd := 3 }, m_port := 8080 }

/-- The trace left by the construction of `srv3` on a well-behaved OS. -/
def tListening : Trace :=
  [Event.sys (OsCall.socket 2 1 0) (reply 3),
   Event.sys (OsCall.bind 3 { sin_family := 2, sin_port := 36895, sin_addr := 0 }) (reply 0),
   Event.sys (OsCall.listen 3 2) (reply 0)]

/-- A small platform for exercising the code: Linux header constants, byte swaps of
a little-endian host, an `inet_pton`/`inet_ntop` that know the loopback address
only, and a clock text that is always the same. -/
def testLibc : Libc :=
  { AF_INET := 2
    SOCK_STREAM := 1
    INADDR_ANY := 0
    htons := fun p => (p % 256) * 256 + (p / 256) % 256
    htonl := fun a =>
      (a % 256) * 16777216 + ((a / 256) % 256) * 65536 + ((a / 65536) % 256) * 256
        + (a / 16777216) % 256
    ntohs := fun p => (p % 256) * 256 + (p / 256) % 256
    inet_pton := fun _ s => if s = "127.0.0.1" then (1, 16777343) else (0, 0)
    inet_ntop := fun _ _ => "127.0.0.1"
    ctime := fun _ => "Wed Jun  9 04:26:40 1993\n".toList }

/-! ## Socket: helper lemmas -/

theorem Socket.close_closed (os : Os) (t : Trace) :
    Socket.close os { m_sockfd := -1 } t = (Outcome.ok (), { m_sockfd := -1 }, t) := by
  simp [Socket.close]

theorem Socket.close_fail (os : Os) (s : Socket) (t : Trace) (hs : s.m_sockfd ≠ -1)
    (hr : (os t (OsCall.close s.m_sockfd)).ret < 0) :
    Socket.close os s t =
      (Outcome.throws ("Socket close failed: " ++ (os t (OsCall.close s.m_sockfd)).reason), s,
        t ++ [Event.sys (OsCall.close s.m_sockfd) (os t (OsCall.close s.m_sockfd))]) := by
  simp [Socket.close, syscall, hs, hr]

theorem Socket.close_success (os : Os) (s : Socket) (t : Trace) (hs : s.m_sockfd ≠ -1)
    (hr : 0 ≤ (os t (OsCall.close s.m_sockfd)).ret) :
    Socket.close os s t =
      (Outcome.ok (), { m_sockfd := -1 },
        t ++ [Event.sys (OsCall.close s.m_sockfd) (os t (OsCall.close s.m_sockfd))]) := by
  simp [Socket.close, syscall, hs, not_lt.mpr hr]

theorem closeTimes_closed (os : Os) (n : Nat) (t : Trace) :
    closeTimes os n { m_sockfd := -1 } t = ({ m_sockfd := -1 }, t) := by
  induction n with
  | zero => rfl
  | succ n ih => simp [closeTimes, Socket.close_closed, ih]

/-! ## C2 -/

/-- C2, as stated, fails: on a Socket holding descriptor 3, when the OS refuses both
`::close` calls, the second `close()` raises an error again. -/
theorem close_twice_second_call_throws :
    (Socket.close osCloseFails (Socket.close osCloseFails { m_sockfd := 3 } []).2.1
      (Socket.close osCloseFails { m_sockfd := 3 } []).2.2).1
      = Outcome.throws "Socket close failed: Input/output error" := by
  decide

/-- C2 (amended): when `close()` is called twice in succession, the second call
raises an error exactly when the first call raised one and the OS refuses the
second OS-level close as well (it then carries that OS reason).  So the second
call raises no error whenever the first call raised none, and whenever the OS
accepts the second OS-level close, whatever the first call did.  After a first
call that raised no error the Socket holds the sentinel -1 and the second call
makes no OS call and changes nothing. -/
theorem close_twice_second_call (os : Os) (s : Socket) (t : Trace) :
    ((Socket.close os s t).1 = Outcome.ok () →
      (Socket.close os s t).2.1 = { m_sockfd := -1 } ∧
      Socket.close os (Socket.close os s t).2.1 (Socket.close os s t).2.2
        = (Outcome.ok (), (Socket.close os s t).2.1, (Socket.close os s t).2.2)) ∧
    (0 ≤ (os (Socket.close os s t).2.2 (OsCall.close s.m_sockfd)).ret →
      (Socket.close os (Socket.close os s t).2.1 (Socket.close os s t).2.2).1
        = Outcome.ok ()) ∧
    ((Socket.close os (Socket.close os s t).2.1 (Socket.close os s t).2.2).1 ≠ Outcome.ok () ↔
      ((Socket.close os s t).1 ≠ Outcome.ok () ∧
        (os (Socket.close os s t).2.2 (OsCall.close s.m_sockfd)).ret < 0)) ∧
    ((Socket.close os s t).1 ≠ Outcome.ok () →
      (os (Socket.close os s t).2.2 (OsCall.close s.m_sockfd)).ret < 0 →
      (Socket.close os (Socket.close os s t).2.1 (Socket.close os s t).2.2).1
        = Outcome.throws ("Socket close failed: "
            ++ (os (Socket.close os s t).2.2 (OsCall.close s.m_sockfd)).reason)) := by
  by_cases hfd : s.m_sockfd = -1
  · have hs : s = { m_sockfd := -1 } := by
      cases s
      simp only at hfd
      rw [hfd]
    subst hs
    simp [Socket.close_closed]
  · by_cases hr : (os t (OsCall.close s.m_sockfd)).ret < 0
    · rw [Socket.close_fail os s t hfd hr]
      simp only []
      by_cases hr2 : (os (t ++ [Event.sys (OsCall.close s.m_sockfd)
          (os t (OsCall.close s.m_sockfd))]) (OsCall.close s.m_sockfd)).ret < 0
      · rw [Socket.close_fail os s _ hfd hr2]
        simp [hr2, not_le.mpr hr2]
      · rw [Socket.close_success os s _ hfd (not_lt.mp hr2)]
        simp [hr2]
    · rw [Socket.close_success os s t hfd (not_lt.mp hr)]
      simp [Socket.close_closed]

/-- The amended C2 at work: the OS refuses the first `::close` of descriptor 3 and
accepts the second, so the first `close()` raises an error and the second does
not; on a well-behaved OS the first succeeds and the second is a no-op. -/
theorem close_twice_second_call_witness :
    (Socket.close osCloseFailsOnce { m_sockfd := 3 } []).1
      = Outcome.throws "Socket close failed: Interrupted system call" ∧
    0 ≤ (osCloseFailsOnce (Socket.close osCloseFailsOnce { m_sockfd := 3 } []).2.2
          (OsCall.close 3)).ret ∧
    (Socket.close osCloseFailsOnce (Socket.close osCloseFailsOnce { m_sockfd := 3 } []).2.1
        (Socket.close osCloseFailsOnce { m_sockfd := 3 } []).2.2).1 = Outcome.ok () ∧
    (Socket.close osFine { m_sockfd := 3 } []).1 = Outcome.ok () ∧
    (Socket.close osFine { m_sockfd := 3 } []).2.1 = { m_sockfd := -1 } ∧
    Socket.close osFine (Socket.close osFine { m_sockfd := 3 } []).2.1
        (Socket.close osFine { m_sockfd := 3 } []).2.2
      = (Outcome.ok (), (Socket.close osFine { m_sockfd := 3 } []).2.1,
          (Socket.close osFine { m_sockfd := 3 } []).2.2) :=
  ⟨by decide, by decide,
    (close_twice_second_call osCloseFailsOnce { m_sockfd := 3 } []).2.1 (by decide),
    by decide,
    (close_twice_second_call osFine { m_sockfd := 3 } []).1 (by decide)⟩

/-! ## C3 -/

/-- C3: construction gives a Socket whose descriptor is the non-negative value the
OS returned and fails with the socket-creation error on a negative value; after
any number of `close()` calls the descriptor is that value or -1 (an invariant
kept by every single `close()`); a `close()` of an open Socket whose OS-level close
succeeds sets it to -1, one whose OS-level close fails raises the close error and
leaves it unchanged; `getDescriptor` only reads the member. -/
theorem socket_descriptor_state (os : Os) (family type protocol : Int) (t : Trace) :
    (0 ≤ (os t (OsCall.socket family type protocol)).ret →
      (Socket.ctor os family type protocol t).1
          = Outcome.ok { m_sockfd := (os t (OsCall.socket family type protocol)).ret } ∧
      Socket.getDescriptor { m_sockfd := (os t (OsCall.socket family type protocol)).ret }
          = (os t (OsCall.socket family type protocol)).ret ∧
      ∀ (n : Nat) (t1 : Trace),
        (closeTimes os n { m_sockfd := (os t (OsCall.socket family type protocol)).ret } t1).1.getDescriptor
            = (os t (OsCall.socket family type protocol)).ret ∨
        (closeTimes os n { m_sockfd := (os t (OsCall.socket family type protocol)).ret } t1).1.getDescriptor
            = -1) ∧
    ((os t (OsCall.socket family type protocol)).ret < 0 →
      (Socket.ctor os family type protocol t).1
          = Outcome.throws
              ("Socket creation failed: " ++ (os t (OsCall.socket family type protocol)).reason)) ∧
    (∀ (fd : Int) (s : Socket) (t1 : Trace),
      s.getDescriptor = fd ∨ s.getDescriptor = -1 →
      (Socket.close os s t1).2.1.getDescriptor = fd ∨
        (Socket.close os s t1).2.1.getDescriptor = -1) ∧
    (∀ (s : Socket) (t1 : Trace), s.getDescriptor ≠ -1 →
      0 ≤ (os t1 (OsCall.close s.getDescriptor)).ret →
      (Socket.close os s t1).1 = Outcome.ok () ∧
        (Socket.close os s t1).2.1.getDescriptor = -1) ∧
    (∀ (s : Socket) (t1 : Trace), s.getDescriptor ≠ -1 →
      (os t1 (OsCall.close s.getDescriptor)).ret < 0 →
      (Socket.close os s t1).1
          = Outcome.throws
              ("Socket close failed: " ++ (os t1 (OsCall.close s.getDescriptor)).reason) ∧
        (Socket.close os s t1).2.1 = s) ∧
    (∀ (s : Socket), s.getDescriptor = s.m_sockfd) := by
  have step : ∀ (fd : Int) (s : Socket) (t1 : Trace),
      s.getDescriptor = fd ∨ s.getDescriptor = -1 →
      (Socket.close os s t1).2.1.getDescriptor = fd ∨
        (Socket.close os s t1).2.1.getDescriptor = -1 := by
    intro fd s t1 hs
    by_cases hfd : s.m_sockfd = -1
    · right
      simp [Socket.close, hfd, Socket.getDescriptor]
    · by_cases hr : (os t1 (OsCall.close s.m_sockfd)).ret < 0
      · rw [Socket.close_fail os s t1 hfd hr]
        rcases hs with hs | hs
        · exact Or.inl hs
        · exact absurd hs hfd
      · right
        rw [Socket.close_success os s t1 hfd (not_lt.mp hr)]
        rfl
  have many : ∀ (fd : Int) (n : Nat) (s : Socket) (t1 : Trace),
      s.getDescriptor = fd ∨ s.getDescriptor = -1 →
      (closeTimes os n s t1).1.getDescriptor = fd ∨
        (closeTimes os n s t1).1.getDescriptor = -1 := by
    intro fd n
    induction n with
    | zero => intro s t1 hs; exact hs
    | succ n ih =>
      intro s t1 hs
      simp only [closeTimes]
      exact ih _ _ (step fd s t1 hs)
  refine ⟨?_, ?_, step, ?_, ?_, fun s => rfl⟩
  · intro h
    refine ⟨?_, rfl, fun n t1 => many _ n _ t1 (Or.inl rfl)⟩
    simp [Socket.ctor, syscall, not_lt.mpr h]
  · intro h
    simp [Socket.ctor, syscall, h]
  · intro s t1 hs hr
    rw [Socket.close_success os s t1 hs hr]
    exact ⟨rfl, rfl⟩
  · intro s t1 hs hr
    rw [Socket.close_fail os s t1 hs hr]
    exact ⟨rfl, rfl⟩

/-- C3 at work on an OS that hands out descriptor 3: construction, three `close()`
calls, and a single `close()`. -/
theorem socket_descriptor_state_witness :
    (Socket.ctor osFine 2 1 0 []).1 = Outcome.ok { m_sockfd := 3 } ∧
    ((closeTimes osFine 3 { m_sockfd := 3 } []).1.getDescriptor = 3 ∨
      (closeTimes osFine 3 { m_sockfd := 3 } []).1.getDescriptor = -1) ∧
    ((Socket.close osFine { m_sockfd := 3 } []).1 = Outcome.ok () ∧
      (Socket.close osFine { m_sockfd := 3 } []).2.1.getDescriptor = -1) ∧
    ((Socket.close osCloseFails { m_sockfd := 3 } []).1
        = Outcome.throws "Socket close failed: Input/output error" ∧
      (Socket.close osCloseFails { m_sockfd := 3 } []).2.1 = { m_sockfd := 3 }) :=
  ⟨((socket_descriptor_state osFine 2 1 0 []).1 (by decide)).1,
   ((socket_descriptor_state osFine 2 1 0 []).1 (by decide)).2.2 3 [],
   (socket_descriptor_state osFine 2 1 0 []).2.2.2.1 { m_sockfd := 3 } [] (by decide) (by decide),
   (socket_descriptor_state osCloseFails 2 1 0 []).2.2.2.2.1 { m_sockfd := 3 } [] (by decide)
     (by decide)⟩

/-! ## C1 -/

theorem closeTimes_open (os : Os) (fd : Int) (hfd : fd ≠ -1) (n : Nat) :
    ∀ t : Trace, ∃ failed : List Event,
      (∀ e ∈ failed, isFailedClose fd e = true) ∧
      (failed ≠ [] → (os t (OsCall.close fd)).ret < 0) ∧
      ((closeTimes os n { m_sockfd := fd } t = ({ m_sockfd := fd }, t ++ failed) ∧
          failed.length = n) ∨
        (∃ last, isGoodClose fd last = true ∧
          closeTimes os n { m_sockfd := fd } t = ({ m_sockfd := -1 }, t ++ failed ++ [last]) ∧
          failed.length < n)) := by
  induction n with
  | zero =>
    intro t
    exact ⟨[], by simp, by simp, Or.inl ⟨by simp [closeTimes], rfl⟩⟩
  | succ n ih =>
    intro t
    by_cases hr : (os t (OsCall.close fd)).ret < 0
    · obtain ⟨failed, hall, _, hcase⟩ :=
        ih (t ++ [Event.sys (OsCall.close fd) (os t (OsCall.close fd))])
      refine ⟨Event.sys (OsCall.close fd) (os t (OsCall.close fd)) :: failed, ?_,
        fun _ => hr, ?_⟩
      · intro e he
        rcases List.mem_cons.mp he with rfl | he
        · simp [isFailedClose, hr]
        · exact hall e he
      · simp only [closeTimes]
        rw [Socket.close_fail os { m_sockfd := fd } t hfd hr]
        rcases hcase with ⟨h1, h2⟩ | ⟨last, hl, h1, h2⟩
        · left
          refine ⟨?_, by simp [h2]⟩
          simpa using h1
        · right
          refine ⟨last, hl, ?_, by simp; omega⟩
          simpa using h1
    · refine ⟨[], by simp, by simp, Or.inr ⟨Event.sys (OsCall.close fd) (os t (OsCall.close fd)), ?_, ?_, ?_⟩⟩
      · simp [isGoodClose, not_lt.mp hr]
      · simp only [closeTimes]
        rw [Socket.close_success os { m_sockfd := fd } t hfd (not_lt.mp hr)]
        simp [closeTimes_closed]
      · simp

theorem isClose_of_isFailedClose (fd : Int) (e : Event) (h : isFailedClose fd e = true) :
    isClose fd e = true := by
  unfold isFailedClose at h
  unfold isClose
  split at h <;> simp_all

theorem not_isGoodClose_of_isFailedClose (fd : Int) (e : Event)
    (h : isFailedClose fd e = true) : isGoodClose fd e = false := by
  unfold isFailedClose at h
  unfold isGoodClose
  split at h
  · simp only [Bool.and_eq_true, decide_eq_true_eq] at h
    simp [h.1, h.2]
  · simp at h

theorem isClose_of_isGoodClose (fd : Int) (e : Event) (h : isGoodClose fd e = true) :
    isClose fd e = true := by
  unfold isGoodClose at h
  unfold isClose
  split at h <;> simp_all

theorem closeCalls_failed (fd : Int) (failed : List Event)
    (h : ∀ e ∈ failed, isFailedClose fd e = true) :
    closeCalls fd failed = failed.length ∧ closeSuccesses fd failed = 0 := by
  induction failed with
  | nil => simp [closeCalls, closeSuccesses]
  | cons e es ih =>
    have he := h e (List.mem_cons_self e es)
    have hes := ih (fun x hx => h x (List.mem_cons_of_mem e hx))
    unfold closeCalls closeSuccesses at *
    rw [List.countP_cons, List.countP_cons, hes.1, hes.2,
      isClose_of_isFailedClose fd e he, not_isGoodClose_of_isFailedClose fd e he]
    simp

theorem openFds_append (t es : Trace) :
    openFds (t ++ es) = es.foldl (openStep Event.opens) (openFds t) := by
  simp [openFds, List.foldl_append]

theorem closes_of_isGoodClose (fd : Int) (e : Event) (h : isGoodClose fd e = true) :
    e.closes = some fd := by
  unfold isGoodClose at h
  split at h
  · simp only [Bool.and_eq_true, beq_iff_eq, decide_eq_true_eq] at h
    simp [Event.closes, h.1, h.2]
  · simp at h

theorem openStep_failedClose (fd : Int) (e : Event) (h : isFailedClose fd e = true)
    (acc : List Int) : openStep Event.opens acc e = acc := by
  unfold isFailedClose at h
  split at h
  · simp only [Bool.and_eq_true, beq_iff_eq, decide_eq_true_eq] at h
    simp [openStep, Event.closes, Event.opens, not_le.mpr h.2]
  · simp at h

theorem foldl_openStep_failed (fd : Int) (es : List Event)
    (hes : ∀ e ∈ es, isFailedClose fd e = true) :
    ∀ acc : List Int, es.foldl (openStep Event.opens) acc = acc := by
  induction es with
  | nil => intro acc; rfl
  | cons e es ih =>
    intro acc
    simp only [List.foldl_cons,
      openStep_failedClose fd e (hes e (List.mem_cons_self e es)) acc]
    exact ih (fun x hx => hes x (List.mem_cons_of_mem e hx)) acc

/-- After a descriptor was handed out, refused `::close` calls on it followed by a
successful one leave the open descriptors as they were before. -/
theorem openFds_after_closes (t : Trace) (fd : Int) (hfd : fd ∉ openFds t) (ev : Event)
    (hev : openStep Event.opens (openFds t) ev = openFds t ++ [fd]) (failed : List Event)
    (hes : ∀ e ∈ failed, isFailedClose fd e = true) (last : Event)
    (hlast : isGoodClose fd last = true) :
    openFds (t ++ [ev] ++ failed ++ [last]) = openFds t := by
  have hlaststep : ∀ acc : List Int, openStep Event.opens acc last = acc.erase fd := by
    intro acc
    simp [openStep, closes_of_isGoodClose fd last hlast]
  rw [List.append_assoc, List.append_assoc, openFds_append, List.foldl_append,
    List.foldl_append]
  simp only [List.foldl_cons, List.foldl_nil]
  rw [hev, foldl_openStep_failed fd failed hes, hlaststep, List.erase_append_right _ hfd]
  simp

theorem closeSuccesses_snoc (fd : Int) (failed : List Event) (last : Event)
    (h : closeSuccesses fd failed = 0) : closeSuccesses fd (failed ++ [last]) ≤ 1 := by
  unfold closeSuccesses at *
  rw [List.countP_append, h]
  by_cases hl : isGoodClose fd last = true
  · simp [List.countP_cons, hl]
  · simp [List.countP_cons, hl]

theorem closeCalls_snoc (fd : Int) (failed : List Event) (last : Event)
    (h : closeCalls fd failed = failed.length) (hl : isClose fd last = true) :
    closeCalls fd (failed ++ [last]) = failed.length + 1 := by
  unfold closeCalls at *
  rw [List.countP_append, h]
  simp [List.countP_cons, hl]

/-- C1, as stated, fails: one explicit `close()` that the OS refuses, followed by
destruction, invokes the OS-level close on descriptor 3 twice. -/
theorem socket_lifecycle_closes_twice :
    closeCalls 3 (socketLifecycle osCloseFailsOnce 2 1 0 1 []).2.2 = 2 := by
  decide

/-- C1 (amended): in a Socket lifetime (successful construction, `n` explicit
`close()` calls, destruction) the events after the `socket` call are OS-level
closes of the acquired descriptor only: some failed ones (at most `n`) followed by
one last one, so the OS-level close is invoked at least once, succeeds at most
once, and is never invoked after it succeeded.  Either the last one succeeded,
destruction completes and the Socket holds -1; or all `n + 1` attempts failed,
the Socket still holds the descriptor and the destructor ends in
`std::terminate`.  When the first OS-level close succeeds there is exactly one.
When destruction completes, the open descriptors are those open before the
lifetime began. -/
theorem socket_lifecycle_close_calls (os : Os) (family type protocol : Int) (n : Nat)
    (t : Trace) (h : 0 ≤ (os t (OsCall.socket family type protocol)).ret) :
    ∃ (failed : List Event) (last : Event),
      (socketLifecycle os family type protocol n t).2.2
        = t ++ [Event.sys (OsCall.socket family type protocol)
                  (os t (OsCall.socket family type protocol))] ++ failed ++ [last] ∧
      (∀ e ∈ failed, isFailedClose (os t (OsCall.socket family type protocol)).ret e = true) ∧
      failed.length ≤ n ∧
      ((isGoodClose (os t (OsCall.socket family type protocol)).ret last = true ∧
          (socketLifecycle os family type protocol n t).1 = Outcome.ok () ∧
          (socketLifecycle os family type protocol n t).2.1 = some { m_sockfd := -1 }) ∨
        (isFailedClose (os t (OsCall.socket family type protocol)).ret last = true ∧
          (socketLifecycle os family type protocol n t).1 = Outcome.terminate ∧
          (socketLifecycle os family type protocol n t).2.1
            = some { m_sockfd := (os t (OsCall.socket family type protocol)).ret } ∧
          failed.length = n)) ∧
      closeCalls (os t (OsCall.socket family type protocol)).ret (failed ++ [last])
        = failed.length + 1 ∧
      closeSuccesses (os t (OsCall.socket family type protocol)).ret (failed ++ [last]) ≤ 1 ∧
      (0 ≤ (os (t ++ [Event.sys (OsCall.socket family type protocol)
                  (os t (OsCall.socket family type protocol))])
              (OsCall.close (os t (OsCall.socket family type protocol)).ret)).ret →
        failed = []) ∧
      ((socketLifecycle os family type protocol n t).1 = Outcome.ok () →
        (os t (OsCall.socket family type protocol)).ret ∉ openFds t →
        openFds (socketLifecycle os family type protocol n t).2.2 = openFds t) := by
  generalize hfd : (os t (OsCall.socket family type protocol)).ret = fd at h ⊢
  generalize ht1 : t ++ [Event.sys (OsCall.socket family type protocol)
      (os t (OsCall.socket family type protocol))] = t1
  have hne : fd ≠ -1 := by omega
  have hlife : socketLifecycle os family type protocol n t
      = ((Socket.dtor os (closeTimes os n { m_sockfd := fd } t1).1
            (closeTimes os n { m_sockfd := fd } t1).2).1,
         some (Socket.dtor os (closeTimes os n { m_sockfd := fd } t1).1
            (closeTimes os n { m_sockfd := fd } t1).2).2.1,
         (Socket.dtor os (closeTimes os n { m_sockfd := fd } t1).1
            (closeTimes os n { m_sockfd := fd } t1).2).2.2) := by
    simp [socketLifecycle, Socket.ctor, syscall, hfd, ht1, not_lt.mpr h]
  rw [hlife]
  have hev : openStep Event.opens (openFds t)
      (Event.sys (OsCall.socket family type protocol) (os t (OsCall.socket family type protocol)))
      = openFds t ++ [fd] := by
    simp [openStep, Event.closes, Event.opens, hfd, h]
  have hleak : ∀ (failed : List Event) (last : Event),
      (∀ e ∈ failed, isFailedClose fd e = true) → isGoodClose fd last = true →
      fd ∉ openFds t → openFds (t1 ++ failed ++ [last]) = openFds t := by
    intro failed last hf hl hnot
    rw [← ht1]
    exact openFds_after_closes t fd hnot _ hev failed hf last hl
  obtain ⟨failed, hall, hfirst, hcase⟩ := closeTimes_open os fd hne n t1
  have hcount := closeCalls_failed fd failed hall
  have hnil : 0 ≤ (os t1 (OsCall.close fd)).ret → failed = [] := by
    intro h0
    by_contra hc
    exact absurd (hfirst hc) (not_lt.mpr h0)
  rcases hcase with ⟨hct, hlen⟩ | ⟨last, hl, hct, hlen⟩
  · rw [hct]
    by_cases hr : (os (t1 ++ failed) (OsCall.close fd)).ret < 0
    · refine ⟨failed, Event.sys (OsCall.close fd) (os (t1 ++ failed) (OsCall.close fd)),
        ?_, hall, by omega, Or.inr ⟨?_, ?_, ?_, hlen⟩, ?_, ?_, hnil, ?_⟩
      · simp [Socket.dtor, hne, Socket.close_fail os { m_sockfd := fd } (t1 ++ failed) hne hr]
      · simp [isFailedClose, hr]
      · simp [Socket.dtor, hne, Socket.close_fail os { m_sockfd := fd } (t1 ++ failed) hne hr]
      · simp [Socket.dtor, hne, Socket.close_fail os { m_sockfd := fd } (t1 ++ failed) hne hr]
      · exact closeCalls_snoc fd failed _ hcount.1 (by simp [isClose])
      · exact closeSuccesses_snoc fd failed _ hcount.2
      · intro hok
        simp [Socket.dtor, hne,
          Socket.close_fail os { m_sockfd := fd } (t1 ++ failed) hne hr] at hok
    · have hr0 := not_lt.mp hr
      refine ⟨failed, Event.sys (OsCall.close fd) (os (t1 ++ failed) (OsCall.close fd)),
        ?_, hall, by omega, Or.inl ⟨?_, ?_, ?_⟩, ?_, ?_, hnil, ?_⟩
      · simp [Socket.dtor, hne,
          Socket.close_success os { m_sockfd := fd } (t1 ++ failed) hne hr0]
      · simp [isGoodClose, hr0]
      · simp [Socket.dtor, hne,
          Socket.close_success os { m_sockfd := fd } (t1 ++ failed) hne hr0]
      · simp [Socket.dtor, hne,
          Socket.close_success os { m_sockfd := fd } (t1 ++ failed) hne hr0]
      · exact closeCalls_snoc fd failed _ hcount.1 (by simp [isClose])
      · exact closeSuccesses_snoc fd failed _ hcount.2
      · intro _ hnot
        have hl := hleak failed (Event.sys (OsCall.close fd) (os (t1 ++ failed) (OsCall.close fd)))
          hall (by simp [isGoodClose, hr0]) hnot
        simpa [Socket.dtor, hne,
          Socket.close_success os { m_sockfd := fd } (t1 ++ failed) hne hr0] using hl
  · rw [hct]
    refine ⟨failed, last, ?_, hall, by omega, Or.inl ⟨hl, ?_, ?_⟩, ?_, ?_, hnil, ?_⟩
    · simp [Socket.dtor]
    · simp [Socket.dtor]
    · simp [Socket.dtor]
    · exact closeCalls_snoc fd failed last hcount.1 (isClose_of_isGoodClose fd last hl)
    · exact closeSuccesses_snoc fd failed last hcount.2
    · intro _ hnot
      have hl2 := hleak failed last hall hl hnot
      simpa [Socket.dtor] using hl2

/-- The amended C1 at work: one refused explicit `close()`, then destruction. -/
theorem socket_lifecycle_close_calls_witness :
    0 ≤ (osCloseFailsOnce [] (OsCall.socket 2 1 0)).ret ∧
    ∃ (failed : List Event) (last : Event),
      (socketLifecycle osCloseFailsOnce 2 1 0 1 []).2.2
        = [] ++ [Event.sys (OsCall.socket 2 1 0) (osCloseFailsOnce [] (OsCall.socket 2 1 0))]
            ++ failed ++ [last] ∧
      (∀ e ∈ failed, isFailedClose 3 e = true) ∧
      failed.length ≤ 1 ∧
      ((isGoodClose 3 last = true ∧
          (socketLifecycle osCloseFailsOnce 2 1 0 1 []).1 = Outcome.ok () ∧
          (socketLifecycle osCloseFailsOnce 2 1 0 1 []).2.1 = some { m_sockfd := -1 }) ∨
        (isFailedClose 3 last = true ∧
          (socketLifecycle osCloseFailsOnce 2 1 0 1 []).1 = Outcome.terminate ∧
          (socketLifecycle osCloseFailsOnce 2 1 0 1 []).2.1 = some { m_sockfd := 3 } ∧
          failed.length = 1)) ∧
      closeCalls 3 (failed ++ [last]) = failed.length + 1 ∧
      closeSuccesses 3 (failed ++ [last]) ≤ 1 ∧
      (0 ≤ (osCloseFailsOnce
              ([] ++ [Event.sys (OsCall.socket 2 1 0) (osCloseFailsOnce [] (OsCall.socket 2 1 0))])
              (OsCall.close 3)).ret →
        failed = []) ∧
      ((socketLifecycle osCloseFailsOnce 2 1 0 1 []).1 = Outcome.ok () →
        (3 : Int) ∉ openFds [] →
        openFds (socketLifecycle osCloseFailsOnce 2 1 0 1 []).2.2 = openFds []) :=
  ⟨by decide, socket_lifecycle_close_calls osCloseFailsOnce 2 1 0 1 [] (by decide)⟩

/-! ## C4 -/

/-- C4: when `inet_pton` does not accept the text (result `<= 0`), `connect` raises
the invalid-address error naming the text, whatever the port; no system call is
made (the trace is unchanged, so there is no OS-level connect) and the client,
with its Socket descriptor, is unchanged. -/
theorem connect_invalid_address (L : Libc) (os : Os) (self : ClientTCP) (ip : String)
    (port : Nat) (t : Trace) (h : (L.inet_pton L.AF_INET ip).1 ≤ 0) :
    ClientTCP.connect L os self ip port t
      = (Outcome.throws ("Invalid IP address: " ++ ip), self, t) := by
  simp [ClientTCP.connect, h]

/-- C4 at work: the text "999.1.1.1" on port 13. -/
theorem connect_invalid_address_witness :
    (testLibc.inet_pton testLibc.AF_INET "999.1.1.1").1 ≤ 0 ∧
    ClientTCP.connect testLibc osFine { m_socket := { m_sockfd := 3 } } "999.1.1.1" 13 []
      = (Outcome.throws ("Invalid IP address: " ++ "999.1.1.1"),
          { m_socket := { m_sockfd := 3 } }, []) :=
  ⟨by decide,
    connect_invalid_address testLibc osFine { m_socket := { m_sockfd := 3 } } "999.1.1.1" 13 []
      (by decide)⟩

/-! ## C5 -/

theorem ServerTCP.unwind_good (os : Os) (self : ServerTCP) (e : String) (t : Trace)
    (hfd : self.m_socket.m_sockfd ≠ -1)
    (hr : 0 ≤ (os t (OsCall.close self.m_socket.m_sockfd)).ret) :
    ServerTCP.unwind os self e t
      = (Outcome.throws e,
          t ++ [Event.sys (OsCall.close self.m_socket.m_sockfd)
                  (os t (OsCall.close self.m_socket.m_sockfd))]) := by
  simp [ServerTCP.unwind, Socket.dtor, hfd, Socket.close_success os self.m_socket t hfd hr]

theorem ServerTCP.unwind_bad (os : Os) (self : ServerTCP) (e : String) (t : Trace)
    (hfd : self.m_socket.m_sockfd ≠ -1)
    (hr : (os t (OsCall.close self.m_socket.m_sockfd)).ret < 0) :
    ServerTCP.unwind os self e t
      = (Outcome.terminate,
          t ++ [Event.sys (OsCall.close self.m_socket.m_sockfd)
                  (os t (OsCall.close self.m_socket.m_sockfd))]) := by
  simp [ServerTCP.unwind, Socket.dtor, hfd, Socket.close_fail os self.m_socket t hfd hr]

/-- C5, as stated, fails: when `bind` fails and the `::close` issued while the
half-built server is torn down fails too, construction does not fail with the
bind error: the exception leaving `~Socket()` ends in `std::terminate`. -/
theorem server_ctor_bind_failure_terminates :
    (ServerTCP.ctor testLibc osBindAndCloseFail 8080 []).1 = Outcome.terminate := by
  decide

/-- C5 (amended): the constructor calls `bind` on the new descriptor with family
`AF_INET`, address `htonl(INADDR_ANY)` and port `htons(port)`, and only after a
successful `bind` calls `listen` with backlog 2.  If `bind` fails, the only further
call is one `::close` of the descriptor (no `listen`); if `bind` succeeds and
`listen` fails, the only further call is one `::close` of the descriptor.  In both
cases, when that `::close` succeeds construction fails with the bind error,
respectively the listen error, and the set of open descriptors is what it was
before construction; when that `::close` fails the program is terminated.  If both
succeed the server holds the descriptor and the port. -/
theorem server_ctor_bind_then_listen (L : Libc) (os : Os) (port : Nat) (t t1 t2 t3 : Trace)
    (fd : Int) (addr : SockAddrIn)
    (hfd : fd = (os t (OsCall.socket L.AF_INET L.SOCK_STREAM 0)).ret) (h0 : 0 ≤ fd)
    (ht1 : t1 = t ++ [Event.sys (OsCall.socket L.AF_INET L.SOCK_STREAM 0)
                        (os t (OsCall.socket L.AF_INET L.SOCK_STREAM 0))])
    (haddr : addr = { sin_family := L.AF_INET, sin_port := L.htons port,
                      sin_addr := L.htonl L.INADDR_ANY })
    (ht2 : t2 = t1 ++ [Event.sys (OsCall.bind fd addr) (os t1 (OsCall.bind fd addr))])
    (ht3 : t3 = t2 ++ [Event.sys (OsCall.listen fd 2) (os t2 (OsCall.listen fd 2))]) :
    ((os t1 (OsCall.bind fd addr)).ret < 0 →
      (ServerTCP.ctor L os port t).2
          = t2 ++ [Event.sys (OsCall.close fd) (os t2 (OsCall.close fd))] ∧
      (0 ≤ (os t2 (OsCall.close fd)).ret →
        (ServerTCP.ctor L os port t).1
            = Outcome.throws ("TCPServer bind error: " ++ (os t1 (OsCall.bind fd addr)).reason) ∧
        (fd ∉ openFds t → openFds (ServerTCP.ctor L os port t).2 = openFds t)) ∧
      ((os t2 (OsCall.close fd)).ret < 0 →
        (ServerTCP.ctor L os port t).1 = Outcome.terminate)) ∧
    (0 ≤ (os t1 (OsCall.bind fd addr)).ret → (os t2 (OsCall.listen fd 2)).ret < 0 →
      (ServerTCP.ctor L os port t).2
          = t3 ++ [Event.sys (OsCall.close fd) (os t3 (OsCall.close fd))] ∧
      (0 ≤ (os t3 (OsCall.close fd)).ret →
        (ServerTCP.ctor L os port t).1
            = Outcome.throws
                ("TCPServer listen error: " ++ (os t2 (OsCall.listen fd 2)).reason) ∧
        (fd ∉ openFds t → openFds (ServerTCP.ctor L os port t).2 = openFds t)) ∧
      ((os t3 (OsCall.close fd)).ret < 0 →
        (ServerTCP.ctor L os port t).1 = Outcome.terminate)) ∧
    (0 ≤ (os t1 (OsCall.bind fd addr)).ret → 0 ≤ (os t2 (OsCall.listen fd 2)).ret →
      ServerTCP.ctor L os port t
        = (Outcome.ok { m_socket := { m_sockfd := fd }, m_port := port }, t3)) := by
  have hne : fd ≠ -1 := by omega
  have hsock : Socket.ctor os L.AF_INET L.SOCK_STREAM 0 t = (Outcome.ok { m_sockfd := fd }, t1) := by
    simp [Socket.ctor, syscall, ← hfd, not_lt.mpr h0, ht1]
  have hopen1 : openFds t1 = openFds t ++ [fd] := by
    rw [ht1, openFds_append]
    simp [openStep, Event.closes, Event.opens, ← hfd, h0]
  have hopen2 : openFds t2 = openFds t ++ [fd] := by
    rw [ht2, openFds_append, hopen1]
    simp [openStep, Event.closes, Event.opens]
  have hopen3 : openFds t3 = openFds t ++ [fd] := by
    rw [ht3, openFds_append, hopen2]
    simp [openStep, Event.closes, Event.opens]
  have herase : fd ∉ openFds t → (openFds t ++ [fd]).erase fd = openFds t := by
    intro hn
    rw [List.erase_append_right _ hn]
    simp
  refine ⟨?_, ?_, ?_⟩
  · intro hb
    have hctor : ServerTCP.ctor L os port t
        = ServerTCP.unwind os { m_socket := { m_sockfd := fd }, m_port := port }
            ("TCPServer bind error: " ++ (os t1 (OsCall.bind fd addr)).reason) t2 := by
      simp [ServerTCP.ctor, hsock, ServerTCP.bind, syscall, Socket.getDescriptor, ← haddr, hb,
        ht2]
    rw [hctor]
    refine ⟨?_, ?_, ?_⟩
    · by_cases hc : (os t2 (OsCall.close fd)).ret < 0
      · rw [ServerTCP.unwind_bad os _ _ t2 hne hc]
      · rw [ServerTCP.unwind_good os _ _ t2 hne (not_lt.mp hc)]
    · intro hc
      rw [ServerTCP.unwind_good os _ _ t2 hne hc]
      refine ⟨rfl, fun hn => ?_⟩
      simp only []
      rw [openFds_append, hopen2]
      simp [openStep, Event.closes, hc, herase hn]
    · intro hc
      rw [ServerTCP.unwind_bad os _ _ t2 hne hc]
  · intro hb hl
    have hctor : ServerTCP.ctor L os port t
        = ServerTCP.unwind os { m_socket := { m_sockfd := fd }, m_port := port }
            ("TCPServer listen error: " ++ (os t2 (OsCall.listen fd 2)).reason) t3 := by
      simp [ServerTCP.ctor, hsock, ServerTCP.bind, ServerTCP.listen, syscall,
        Socket.getDescriptor, ← haddr, not_lt.mpr hb, ← ht2, LISTENQ, hl, ht3]
    rw [hctor]
    refine ⟨?_, ?_, ?_⟩
    · by_cases hc : (os t3 (OsCall.close fd)).ret < 0
      · rw [ServerTCP.unwind_bad os _ _ t3 hne hc]
      · rw [ServerTCP.unwind_good os _ _ t3 hne (not_lt.mp hc)]
    · intro hc
      rw [ServerTCP.unwind_good os _ _ t3 hne hc]
      refine ⟨rfl, fun hn => ?_⟩
      simp only []
      rw [openFds_append, hopen3]
      simp [openStep, Event.closes, hc, herase hn]
    · intro hc
      rw [ServerTCP.unwind_bad os _ _ t3 hne hc]
  · intro hb hl
    simp [ServerTCP.ctor, hsock, ServerTCP.bind, ServerTCP.listen, syscall,
      Socket.getDescriptor, ← haddr, not_lt.mpr hb, ← ht2, LISTENQ, not_lt.mpr hl, ht3]

/-- The amended C5 at work: port 8080 is in use, so `bind` fails; the descriptor is
closed and construction fails with the bind error. -/
theorem server_ctor_bind_then_listen_witness :
    (0 : Int) ≤ 3 ∧
    (osBindFails [Event.sys (OsCall.socket 2 1 0) (reply 3)]
        (OsCall.bind 3 { sin_family := 2, sin_port := 36895, sin_addr := 0 })).ret < 0 ∧
    (ServerTCP.ctor testLibc osBindFails 8080 []).2
      = [Event.sys (OsCall.socket 2 1 0) (reply 3),
         Event.sys (OsCall.bind 3 { sin_family := 2, sin_port := 36895, sin_addr := 0 })
           (failure "Address already in use"),
         Event.sys (OsCall.close 3) (reply 0)] ∧
    (ServerTCP.ctor testLibc osBindFails 8080 []).1
      = Outcome.throws ("TCPServer bind error: " ++ "Address already in use") ∧
    openFds (ServerTCP.ctor testLibc osBindFails 8080 []).2 = openFds [] :=
  ⟨by decide, by decide,
    ((server_ctor_bind_then_listen testLibc osBindFails 8080 []
        [Event.sys (OsCall.socket 2 1 0) (reply 3)]
        [Event.sys (OsCall.socket 2 1 0) (reply 3),
         Event.sys (OsCall.bind 3 { sin_family := 2, sin_port := 36895, sin_addr := 0 })
           (failure "Address already in use")]
        [Event.sys (OsCall.socket 2 1 0) (reply 3),
         Event.sys (OsCall.bind 3 { sin_family := 2, sin_port := 36895, sin_addr := 0 })
           (failure "Address already in use"),
         Event.sys (OsCall.listen 3 2) (reply 0)]
        3 { sin_family := 2, sin_port := 36895, sin_addr := 0 }
        rfl (by decide) rfl rfl rfl rfl).1 (by decide)).1,
    (((server_ctor_bind_then_listen testLibc osBindFails 8080 []
        [Event.sys (OsCall.socket 2 1 0) (reply 3)]
        [Event.sys (OsCall.socket 2 1 0) (reply 3),
         Event.sys (OsCall.bind 3 { sin_family := 2, sin_port := 36895, sin_addr := 0 })
           (failure "Address already in use")]
        [Event.sys (OsCall.socket 2 1 0) (reply 3),
         Event.sys (OsCall.bind 3 { sin_family := 2, sin_port := 36895, sin_addr := 0 })
           (failure "Address already in use"),
         Event.sys (OsCall.listen 3 2) (reply 0)]
        3 { sin_family := 2, sin_port := 36895, sin_addr := 0 }
        rfl (by decide) rfl rfl rfl rfl).1 (by decide)).2.1 (by decide)).1,
    (((server_ctor_bind_then_listen testLibc osBindFails 8080 []
        [Event.sys (OsCall.socket 2 1 0) (reply 3)]
        [Event.sys (OsCall.socket 2 1 0) (reply 3),
         Event.sys (OsCall.bind 3 { sin_family := 2, sin_port := 36895, sin_addr := 0 })
           (failure "Address already in use")]
        [Event.sys (OsCall.socket 2 1 0) (reply 3),
         Event.sys (OsCall.bind 3 { sin_family := 2, sin_port := 36895, sin_addr := 0 })
           (failure "Address already in use"),
         Event.sys (OsCall.listen 3 2) (reply 0)]
        3 { sin_family := 2, sin_port := 36895, sin_addr := 0 }
        rfl (by decide) rfl rfl rfl rfl).1 (by decide)).2.1 (by decide)).2 (by decide)⟩

/-! ## C6 -/

theorem openStep_nonneg (acc : List Int) (e : Event) (h : ∀ x ∈ acc, 0 ≤ x) :
    ∀ x ∈ openStep Event.opens acc e, 0 ≤ x := by
  intro x hx
  unfold openStep at hx
  split at hx
  · exact h x (List.mem_of_mem_erase hx)
  · split at hx
    · rename_i fd hfd
      rcases List.mem_append.mp hx with hx | hx
      · exact h x hx
      · have hxe : x = fd := by simpa using hx
        subst hxe
        unfold Event.opens at hfd
        split at hfd
        · split at hfd
          · simp only [Option.some.injEq] at hfd
            omega
          · simp at hfd
        · split at hfd
          · simp only [Option.some.injEq] at hfd
            omega
          · simp at hfd
        · simp at hfd
    · exact h x hx

theorem foldl_openStep_nonneg (es : Trace) :
    ∀ acc : List Int, (∀ x ∈ acc, 0 ≤ x) →
      ∀ x ∈ es.foldl (openStep Event.opens) acc, 0 ≤ x := by
  induction es with
  | nil => intro acc h; simpa using h
  | cons e es ih =>
    intro acc h
    simp only [List.foldl_cons]
    exact ih _ (openStep_nonneg acc e h)

theorem openFds_nonneg (t : Trace) : ∀ x ∈ openFds t, 0 ≤ x :=
  foldl_openStep_nonneg t [] (by simp)

theorem osListener_rejectsClosed : RejectsClosed osListener := by
  intro t fd h
  simp [osListener, h, failure]

/-- C6: `accept` makes exactly one system call, an `accept` on the listening
Socket's descriptor, and leaves the server (descriptor and port) as it was; a
non-negative result is returned unchanged (with the peer address the OS stored),
a negative result raises the accept error carrying the OS reason.  On an OS that
refuses `accept` on descriptors that are not open, a server whose listening
descriptor is not open, or whose Socket holds the sentinel -1, gets the accept
error. -/
theorem accept_single_call (os : Os) (self : ServerTCP) (t : Trace) :
    (ServerTCP.accept os self t).2.2
      = t ++ [Event.sys (OsCall.accept self.m_socket.getDescriptor)
                (os t (OsCall.accept self.m_socket.getDescriptor))] ∧
    (ServerTCP.accept os self t).2.1 = self ∧
    (0 ≤ (os t (OsCall.accept self.m_socket.getDescriptor)).ret →
      (ServerTCP.accept os self t).1
        = Outcome.ok ((os t (OsCall.accept self.m_socket.getDescriptor)).ret,
            (os t (OsCall.accept self.m_socket.getDescriptor)).peer)) ∧
    ((os t (OsCall.accept self.m_socket.getDescriptor)).ret < 0 →
      (ServerTCP.accept os self t).1
        = Outcome.throws ("TCPServer accept error: "
            ++ (os t (OsCall.accept self.m_socket.getDescriptor)).reason)) ∧
    (RejectsClosed os →
      self.m_socket.getDescriptor ∉ openFds t ∨ self.m_socket.getDescriptor = -1 →
      (ServerTCP.accept os self t).1
        = Outcome.throws ("TCPServer accept error: "
            ++ (os t (OsCall.accept self.m_socket.getDescriptor)).reason)) := by
  have hneg : (os t (OsCall.accept self.m_socket.getDescriptor)).ret < 0 →
      (ServerTCP.accept os self t).1
        = Outcome.throws ("TCPServer accept error: "
            ++ (os t (OsCall.accept self.m_socket.getDescriptor)).reason) := by
    intro h
    simp [ServerTCP.accept, syscall, h]
  refine ⟨?_, ?_, ?_, hneg, ?_⟩
  · by_cases h : (os t (OsCall.accept self.m_socket.getDescriptor)).ret < 0 <;>
      simp [ServerTCP.accept, syscall, h]
  · by_cases h : (os t (OsCall.accept self.m_socket.getDescriptor)).ret < 0 <;>
      simp [ServerTCP.accept, syscall, h]
  · intro h
    simp [ServerTCP.accept, syscall, not_lt.mpr h]
  · intro hos hclosed
    apply hneg
    apply hos
    rcases hclosed with hc | hc
    · exact hc
    · rw [hc]
      intro hmem
      have := openFds_nonneg t (-1) hmem
      omega

/-- C6 at work: the listening descriptor 3 was closed behind the server's back;
`accept` raises the accept error. -/
theorem accept_single_call_witness :
    RejectsClosed osListener ∧
    (3 : Int) ∉ openFds [Event.sys (OsCall.socket 2 1 0) (reply 3),
                          Event.sys (OsCall.close 3) (reply 0)] ∧
    (ServerTCP.accept osListener { m_socket := { m_sockfd := 3 }, m_port := 8080 }
        [Event.sys (OsCall.socket 2 1 0) (reply 3), Event.sys (OsCall.close 3) (reply 0)]).1
      = Outcome.throws ("TCPServer accept error: "
          ++ (osListener
                [Event.sys (OsCall.socket 2 1 0) (reply 3), Event.sys (OsCall.close 3) (reply 0)]
                (OsCall.accept 3)).reason) ∧
    (ServerTCP.accept osListener { m_socket := { m_sockfd := 3 }, m_port := 8080 }
        [Event.sys (OsCall.socket 2 1 0) (reply 3)]).1
      = Outcome.ok (4, { sin_family := 0, sin_port := 0, sin_addr := 0 }) :=
  ⟨osListener_rejectsClosed, by decide,
    (accept_single_call osListener { m_socket := { m_sockfd := 3 }, m_port := 8080 }
      [Event.sys (OsCall.socket 2 1 0) (reply 3),
        Event.sys (OsCall.close 3) (reply 0)]).2.2.2.2 osListener_rejectsClosed
      (Or.inl (by decide)),
    (accept_single_call osListener { m_socket := { m_sockfd := 3 }, m_port := 8080 }
      [Event.sys (OsCall.socket 2 1 0) (reply 3)]).2.2.1 (by decide)⟩

/-! ## The daytime server loop: helper lemmas -/

theorem ServerTCPdaytime.runBody_fail (L : Libc) (os : Os) (self : ServerTCP) (t : Trace)
    (h : (os t (OsCall.accept self.m_socket.getDescriptor)).ret < 0) :
    ServerTCPdaytime.runBody L os self t
      = (Outcome.throws ("TCPServer accept error: "
            ++ (os t (OsCall.accept self.m_socket.getDescriptor)).reason), self,
          t ++ [Event.sys (OsCall.accept self.m_socket.getDescriptor)
                  (os t (OsCall.accept self.m_socket.getDescriptor))]) := by
  simp [ServerTCPdaytime.runBody, ServerTCP.accept, syscall, h]

theorem ServerTCPdaytime.runBody_ok (L : Libc) (os : Os) (self : ServerTCP) (t : Trace)
    (h : 0 ≤ (os t (OsCall.accept self.m_socket.getDescriptor)).ret) :
    ∃ rt rw rc : OsReply,
      ServerTCPdaytime.runBody L os self t
        = (Outcome.ok (), self,
            t ++ passOf L self.m_socket.getDescriptor
                  (os t (OsCall.accept self.m_socket.getDescriptor)) rt rw rc) := by
  let ra := os t (OsCall.accept self.m_socket.getDescriptor)
  let t2 := t ++ [Event.sys (OsCall.accept self.m_socket.getDescriptor) ra,
    Event.cout ("Connection from " ++ L.inet_ntop L.AF_INET ra.peer.sin_addr ++ ":"
      ++ toString (L.ntohs ra.peer.sin_port) ++ "\n")]
  let rt := os t2 OsCall.time
  let t3 := t2 ++ [Event.sys OsCall.time rt]
  let rw := os t3 (OsCall.write ra.ret (ServerTCPdaytime.line (L.ctime rt.ret)))
  let t4 := t3 ++ [Event.sys (OsCall.write ra.ret (ServerTCPdaytime.line (L.ctime rt.ret))) rw]
  let rc := os t4 (OsCall.close ra.ret)
  refine ⟨rt, rw, rc, ?_⟩
  simp only [ServerTCPdaytime.runBody, ServerTCP.accept, syscall, not_lt.mpr h, if_false,
    ServerTCP.logConnection, ServerTCP.connectionServiced, passOf, List.append_assoc,
    List.singleton_append, List.cons_append, List.nil_append, ra, t2, rt, t3, rw, t4, rc]

theorem isIteration_passOf (L : Libc) (lfd : Int) (ra rt rw rc : OsReply) (h : 0 ≤ ra.ret) :
    isIteration L lfd (passOf L lfd ra rt rw rc) = true := by
  simp [isIteration, passOf, h]

theorem passOf_of_isIteration (L : Libc) (lfd : Int) (es : List Event)
    (h : isIteration L lfd es = true) :
    ∃ ra rt rw rc : OsReply, 0 ≤ ra.ret ∧ es = passOf L lfd ra rt rw rc := by
  unfold isIteration at h
  split at h
  · rename_i ra _ rt _ _ rw _ rc _
    simp only [Bool.and_eq_true, decide_eq_true_eq] at h
    exact ⟨ra, rt, rw, rc, h.1, h.2⟩
  · simp at h

/-- Shape of every run of the loop: some serviced connections, then either the
fuel is used up or a failed `accept` whose error leaves `run()`. -/
theorem ServerTCPdaytime.run_shape (L : Libc) (os : Os) (self : ServerTCP) (fuel : Nat) :
    ∀ t : Trace, ∃ passes : List (List Event),
      (∀ p ∈ passes, isIteration L self.m_socket.getDescriptor p = true) ∧
      passes.length ≤ fuel ∧
      (ServerTCPdaytime.run L os fuel self t).2.1 = self ∧
      (((ServerTCPdaytime.run L os fuel self t).1 = none ∧ passes.length = fuel ∧
          (ServerTCPdaytime.run L os fuel self t).2.2 = t ++ passes.flatten) ∨
        (∃ rf : OsReply, rf.ret < 0 ∧
          (ServerTCPdaytime.run L os fuel self t).1
            = some (Outcome.throws ("TCPServer accept error: " ++ rf.reason)) ∧
          (ServerTCPdaytime.run L os fuel self t).2.2
            = t ++ passes.flatten
                ++ [Event.sys (OsCall.accept self.m_socket.getDescriptor) rf])) := by
  induction fuel with
  | zero =>
    intro t
    exact ⟨[], by simp, by simp, rfl, Or.inl ⟨rfl, rfl, by simp [ServerTCPdaytime.run]⟩⟩
  | succ fuel ih =>
    intro t
    by_cases h : (os t (OsCall.accept self.m_socket.getDescriptor)).ret < 0
    · refine ⟨[], by simp, by simp, ?_, Or.inr ⟨_, h, ?_, ?_⟩⟩ <;>
        simp [ServerTCPdaytime.run, ServerTCPdaytime.runBody_fail L os self t h]
    · obtain ⟨rt, rw, rc, hbody⟩ := ServerTCPdaytime.runBody_ok L os self t (not_lt.mp h)
      obtain ⟨passes, hall, hlen, hself, hcase⟩ :=
        ih (t ++ passOf L self.m_socket.getDescriptor
              (os t (OsCall.accept self.m_socket.getDescriptor)) rt rw rc)
      have hrun : ServerTCPdaytime.run L os (fuel + 1) self t
          = ServerTCPdaytime.run L os fuel self
              (t ++ passOf L self.m_socket.getDescriptor
                (os t (OsCall.accept self.m_socket.getDescriptor)) rt rw rc) := by
        simp [ServerTCPdaytime.run, hbody]
      rw [hrun]
      refine ⟨passOf L self.m_socket.getDescriptor
          (os t (OsCall.accept self.m_socket.getDescriptor)) rt rw rc :: passes, ?_, ?_, hself, ?_⟩
      · intro p hp
        rcases List.mem_cons.mp hp with rfl | hp
        · exact isIteration_passOf L _ _ rt rw rc (not_lt.mp h)
        · exact hall p hp
      · simp only [List.length_cons]
        omega
      · rcases hcase with ⟨h1, h2, h3⟩ | ⟨rf, hrf, h1, h3⟩
        · exact Or.inl ⟨h1, by simp [h2], by simp [h3, List.append_assoc]⟩
        · exact Or.inr ⟨rf, hrf, h1, by simp [h3, List.append_assoc]⟩

theorem pendingFrom_append (acc : List Int) (es fs : List Event) :
    pendingFrom acc (es ++ fs) = pendingFrom (pendingFrom acc es) fs := by
  simp [pendingFrom, List.foldl_append]

theorem pendingFrom_passOf (L : Libc) (lfd : Int) (ra rt rw rc : OsReply)
    (h : 0 ≤ ra.ret) : pendingFrom [] (passOf L lfd ra rt rw rc) = [] := by
  simp [pendingFrom, passOf, pendingStep, Event.closeCall, Event.accepts, h]

/-- Within one serviced connection at most one accepted descriptor awaits its
`::close` call, and none does when its `accept` is issued. -/
theorem passOf_discipline (L : Libc) (lfd : Int) (ra rt rw rc : OsReply) (h : 0 ≤ ra.ret)
    (rest : List Event) (k : Nat) (hk : k < 6) :
    (pendingFrom [] ((passOf L lfd ra rt rw rc ++ rest).take k)).length ≤ 1 ∧
    (∀ e, (passOf L lfd ra rt rw rc ++ rest)[k]? = some e → isAcceptCall e = true →
      pendingFrom [] ((passOf L lfd ra rt rw rc ++ rest).take k) = []) := by
  rcases k with _ | _ | _ | _ | _ | _ | k
  · simp [pendingFrom]
  · simp [pendingFrom, passOf, pendingStep, Event.closeCall, Event.accepts, h, isAcceptCall]
  · simp [pendingFrom, passOf, pendingStep, Event.closeCall, Event.accepts, h, isAcceptCall]
  · simp [pendingFrom, passOf, pendingStep, Event.closeCall, Event.accepts, h, isAcceptCall]
  · simp [pendingFrom, passOf, pendingStep, Event.closeCall, Event.accepts, h, isAcceptCall]
  · simp [pendingFrom, passOf, pendingStep, Event.closeCall, Event.accepts, h, isAcceptCall]
  · omega

theorem passOf_length (L : Libc) (lfd : Int) (ra rt rw rc : OsReply) :
    (passOf L lfd ra rt rw rc).length = 6 := rfl

/-- Over any number of serviced connections, optionally followed by a failed
`accept`: in every initial segment at most one accepted descriptor awaits its
`::close` call, none does whenever `accept` is called, and none does at the end. -/
theorem passes_discipline (L : Libc) (lfd : Int) (passes : List (List Event))
    (hall : ∀ p ∈ passes, isIteration L lfd p = true) (tail : List Event)
    (htail : tail = [] ∨ ∃ rf : OsReply, rf.ret < 0 ∧ tail = [Event.sys (OsCall.accept lfd) rf]) :
    (∀ k : Nat,
      (pendingFrom [] ((passes.flatten ++ tail).take k)).length ≤ 1 ∧
      (∀ e, (passes.flatten ++ tail)[k]? = some e → isAcceptCall e = true →
        pendingFrom [] ((passes.flatten ++ tail).take k) = [])) ∧
    pendingFrom [] (passes.flatten ++ tail) = [] := by
  induction passes with
  | nil =>
    rcases htail with rfl | ⟨rf, hrf, rfl⟩
    · simp [pendingFrom]
    · refine ⟨fun k => ?_, ?_⟩
      · rcases k with _ | k
        · simp [pendingFrom]
        · simp [pendingFrom, pendingStep, Event.closeCall, Event.accepts, not_le.mpr hrf]
      · simp [pendingFrom, pendingStep, Event.closeCall, Event.accepts, not_le.mpr hrf]
  | cons p ps ih =>
    obtain ⟨ra, rt, rw, rc, hra, rfl⟩ :=
      passOf_of_isIteration L lfd p (hall p (List.mem_cons_self p ps))
    obtain ⟨ihk, ihend⟩ := ih (fun q hq => hall q (List.mem_cons_of_mem _ hq))
    have hflat : (passOf L lfd ra rt rw rc :: ps).flatten ++ tail
        = passOf L lfd ra rt rw rc ++ (ps.flatten ++ tail) := by
      simp [List.append_assoc]
    rw [hflat]
    refine ⟨fun k => ?_, ?_⟩
    · by_cases hk : k < 6
      · exact passOf_discipline L lfd ra rt rw rc hra _ k hk
      · have hk6 : (passOf L lfd ra rt rw rc).length ≤ k := by
          rw [passOf_length]
          omega
        have htake : (passOf L lfd ra rt rw rc ++ (ps.flatten ++ tail)).take k
            = passOf L lfd ra rt rw rc ++ (ps.flatten ++ tail).take (k - 6) := by
          rw [List.take_append_eq_append_take, List.take_of_length_le hk6, passOf_length]
        have hget : (passOf L lfd ra rt rw rc ++ (ps.flatten ++ tail))[k]?
            = (ps.flatten ++ tail)[k - 6]? := by
          rw [List.getElem?_append_right hk6, passOf_length]
        rw [htake, hget, pendingFrom_append, pendingFrom_passOf L lfd ra rt rw rc hra]
        exact ihk (k - 6)
    · rw [pendingFrom_append, pendingFrom_passOf L lfd ra rt rw rc hra]
      exact ihend

theorem ServerTCPdaytime.run_continue (L : Libc) (os : Os) (n : Nat) :
    ∀ (self : ServerTCP) (t : Trace), (ServerTCPdaytime.run L os n self t).1 = none →
      ∀ m : Nat, ServerTCPdaytime.run L os (n + m) self t
        = ServerTCPdaytime.run L os m (ServerTCPdaytime.run L os n self t).2.1
            (ServerTCPdaytime.run L os n self t).2.2 := by
  induction n with
  | zero =>
    intro self t _ m
    simp [ServerTCPdaytime.run]
  | succ n ih =>
    intro self t h m
    have hnm : n + 1 + m = (n + m) + 1 := by omega
    rw [hnm]
    rcases hbody : ServerTCPdaytime.runBody L os self t with ⟨o, self1, t1⟩
    cases o with
    | ok u =>
      simp only [ServerTCPdaytime.run, hbody] at h ⊢
      exact ih self1 t1 h m
    | throws e => simp [ServerTCPdaytime.run, hbody] at h
    | terminate => simp [ServerTCPdaytime.run, hbody] at h

theorem getElem?_length_append (t : List Event) (e : Event) (rest : List Event) :
    (t ++ e :: rest)[t.length]? = some e := by
  rw [List.getElem?_append_right (le_refl _)]
  simp

theorem logLine_ne_startLine (a b : String) :
    "Connection from " ++ a ++ ":" ++ b ++ "\n" ≠ "Server Daytime is listening...\n" := by
  intro h
  have h2 := congrArg String.data h
  simp only [String.data_append] at h2
  have h3 := congrArg List.head? h2
  simp at h3

theorem startLine_not_mem_passOf (L : Libc) (lfd : Int) (ra rt rw rc : OsReply) :
    Event.cout "Server Daytime is listening...\n" ∉ passOf L lfd ra rt rw rc := by
  intro h
  simp only [passOf, List.mem_cons, List.mem_singleton, Event.cout.injEq, List.mem_nil_iff,
    or_false, reduceCtorEq, false_or] at h
  rcases h with h | h
  · exact logLine_ne_startLine _ _ h.symm
  · revert h
    decide

/-! ## C7 -/

/-- C7 evaluated on the code: the start hook would print its line, but `run()` never
calls it.  Whatever the OS does, the first thing `run()` does is the `accept`
system call, and the hook's line is not among the events `run()` produces. -/
theorem daytime_run_never_calls_start_hook (L : Libc) (os : Os) (self : ServerTCP)
    (fuel : Nat) (t : Trace) :
    ServerTCPdaytime.onServerStart t = t ++ [Event.cout "Server Daytime is listening...\n"] ∧
    (ServerTCPdaytime.run L os (fuel + 1) self t).2.2[t.length]?
      = some (Event.sys (OsCall.accept self.m_socket.getDescriptor)
          (os t (OsCall.accept self.m_socket.getDescriptor))) ∧
    Event.cout "Server Daytime is listening...\n"
      ∉ (ServerTCPdaytime.run L os fuel self t).2.2.drop t.length := by
  refine ⟨rfl, ?_, ?_⟩
  · by_cases h : (os t (OsCall.accept self.m_socket.getDescriptor)).ret < 0
    · simp [ServerTCPdaytime.run, ServerTCPdaytime.runBody_fail L os self t h]
    · obtain ⟨rt, rw, rc, hbody⟩ := ServerTCPdaytime.runBody_ok L os self t (not_lt.mp h)
      obtain ⟨passes, _, _, _, hcase⟩ := ServerTCPdaytime.run_shape L os self fuel
        (t ++ passOf L self.m_socket.getDescriptor
              (os t (OsCall.accept self.m_socket.getDescriptor)) rt rw rc)
      have hrun : ServerTCPdaytime.run L os (fuel + 1) self t
          = ServerTCPdaytime.run L os fuel self
              (t ++ passOf L self.m_socket.getDescriptor
                (os t (OsCall.accept self.m_socket.getDescriptor)) rt rw rc) := by
        simp [ServerTCPdaytime.run, hbody]
      rw [hrun]
      rcases hcase with ⟨_, _, h3⟩ | ⟨rf, _, _, h3⟩
      · rw [h3]
        simp only [passOf, List.append_assoc, List.cons_append]
        exact getElem?_length_append _ _ _
      · rw [h3]
        simp only [passOf, List.append_assoc, List.cons_append]
        exact getElem?_length_append _ _ _
  · obtain ⟨passes, hall, _, _, hcase⟩ := ServerTCPdaytime.run_shape L os self fuel t
    have hpasses : Event.cout "Server Daytime is listening...\n" ∉ passes.flatten := by
      intro hmem
      obtain ⟨p, hp, hin⟩ := List.mem_flatten.mp hmem
      obtain ⟨ra, rt, rw, rc, _, rfl⟩ := passOf_of_isIteration L _ p (hall p hp)
      exact startLine_not_mem_passOf L _ ra rt rw rc hin
    rcases hcase with ⟨_, _, h3⟩ | ⟨rf, _, _, h3⟩
    · rw [h3, List.drop_left]
      exact hpasses
    · rw [h3, List.append_assoc, List.drop_left]
      intro hmem
      rcases List.mem_append.mp hmem with hm | hm
      · exact hpasses hm
      · simp at hm

/-! ## C8 -/

theorem openStep_eq_pendingStep (e : Event) (h : closeNotRefused e = true) (acc : List Int) :
    openStep Event.accepts acc e = pendingStep acc e := by
  cases e with
  | sys call r =>
    cases call <;> simp_all [openStep, pendingStep, Event.closes, Event.closeCall,
      closeNotRefused]
  | cout text => simp [openStep, pendingStep, Event.closes, Event.closeCall]
  | cerr text => simp [openStep, pendingStep, Event.closes, Event.closeCall]

theorem foldl_openStep_eq_pendingFrom (es : List Event) :
    ∀ acc : List Int, closesSucceed es = true →
      es.foldl (openStep Event.accepts) acc = pendingFrom acc es := by
  induction es with
  | nil => intro acc _; rfl
  | cons e es ih =>
    intro acc h
    simp only [closesSucceed, List.all_cons, Bool.and_eq_true] at h
    simp only [List.foldl_cons, pendingFrom, openStep_eq_pendingStep e h.1 acc]
    exact ih _ h.2

theorem openAccepted_eq_pendingAccepted (es : List Event) (h : closesSucceed es = true) :
    openAccepted es = pendingAccepted es :=
  foldl_openStep_eq_pendingFrom es [] h

theorem closesSucceed_take (es : List Event) (h : closesSucceed es = true) (k : Nat) :
    closesSucceed (es.take k) = true := by
  simp only [closesSucceed, List.all_eq_true] at h ⊢
  exact fun x hx => h x (List.mem_of_mem_take hx)

/-- C8, as stated, fails: on an OS that refuses every `::close`, after two passes of
the loop the accepted descriptors 4 and 5 are both open (`run()` ignores the
result of `::close` and goes on to the next `accept`). -/
theorem daytime_run_two_open_when_close_refused :
    openAccepted (ServerTCPdaytime.run testLibc osClosesRefused 2 srv3 tListening).2.2
      = [4, 5] := by
  decide

/-- C8 (amended): every run of the loop produces a sequence of serviced connections
(each exactly: `accept`, the log line, the clock, one `write` of the daytime line
to the accepted descriptor, a `::close` call on that descriptor, the serviced
line; no `read`), followed by nothing while the loop is still running or by one
failed `accept` whose error leaves `run()`; the server is unchanged.  At every
point of the execution at most one accepted descriptor awaits its `::close` call,
none does whenever `accept` is called, and none does at the end.  When every
`::close` of the execution succeeded, the same holds for open descriptors: at
most one accepted descriptor is open at any point, none is open whenever `accept`
is called, and none is open at the end, in particular when the accept error
leaves `run()`.  If the loop is still running after `fuel` passes and the next
`accept` fails, any further pass ends `run()` with the accept error. -/
theorem daytime_run_one_connection_at_a_time (L : Libc) (os : Os) (self : ServerTCP)
    (fuel : Nat) (t : Trace) :
    (∃ (passes : List (List Event)) (tail : List Event),
      (ServerTCPdaytime.run L os fuel self t).2.2 = t ++ (passes.flatten ++ tail) ∧
      (ServerTCPdaytime.run L os fuel self t).2.1 = self ∧
      (∀ p ∈ passes, isIteration L self.m_socket.getDescriptor p = true) ∧
      passes.length ≤ fuel ∧
      (((ServerTCPdaytime.run L os fuel self t).1 = none ∧ passes.length = fuel ∧ tail = []) ∨
        (∃ rf : OsReply, rf.ret < 0 ∧
          (ServerTCPdaytime.run L os fuel self t).1
            = some (Outcome.throws ("TCPServer accept error: " ++ rf.reason)) ∧
          tail = [Event.sys (OsCall.accept self.m_socket.getDescriptor) rf]))) ∧
    (∀ k : Nat,
      (pendingAccepted
        (((ServerTCPdaytime.run L os fuel self t).2.2.drop t.length).take k)).length ≤ 1) ∧
    (∀ (k : Nat) (e : Event),
      ((ServerTCPdaytime.run L os fuel self t).2.2.drop t.length)[k]? = some e →
      isAcceptCall e = true →
      pendingAccepted (((ServerTCPdaytime.run L os fuel self t).2.2.drop t.length).take k)
        = []) ∧
    pendingAccepted ((ServerTCPdaytime.run L os fuel self t).2.2.drop t.length) = [] ∧
    (closesSucceed ((ServerTCPdaytime.run L os fuel self t).2.2.drop t.length) = true →
      (∀ k : Nat,
        (openAccepted
          (((ServerTCPdaytime.run L os fuel self t).2.2.drop t.length).take k)).length ≤ 1) ∧
      (∀ (k : Nat) (e : Event),
        ((ServerTCPdaytime.run L os fuel self t).2.2.drop t.length)[k]? = some e →
        isAcceptCall e = true →
        openAccepted (((ServerTCPdaytime.run L os fuel self t).2.2.drop t.length).take k)
          = []) ∧
      openAccepted ((ServerTCPdaytime.run L os fuel self t).2.2.drop t.length) = []) ∧
    ((ServerTCPdaytime.run L os fuel self t).1 = none →
      (os (ServerTCPdaytime.run L os fuel self t).2.2
          (OsCall.accept self.m_socket.getDescriptor)).ret < 0 →
      ∀ extra : Nat,
        ServerTCPdaytime.run L os (fuel + (extra + 1)) self t
          = (some (Outcome.throws ("TCPServer accept error: "
                ++ (os (ServerTCPdaytime.run L os fuel self t).2.2
                      (OsCall.accept self.m_socket.getDescriptor)).reason)),
              self,
              (ServerTCPdaytime.run L os fuel self t).2.2
                ++ [Event.sys (OsCall.accept self.m_socket.getDescriptor)
                      (os (ServerTCPdaytime.run L os fuel self t).2.2
                        (OsCall.accept self.m_socket.getDescriptor))])) := by
  obtain ⟨passes, hall, hlen, hself, hcase⟩ := ServerTCPdaytime.run_shape L os self fuel t
  have hlive : (ServerTCPdaytime.run L os fuel self t).1 = none →
      (os (ServerTCPdaytime.run L os fuel self t).2.2
          (OsCall.accept self.m_socket.getDescriptor)).ret < 0 →
      ∀ extra : Nat,
        ServerTCPdaytime.run L os (fuel + (extra + 1)) self t
          = (some (Outcome.throws ("TCPServer accept error: "
                ++ (os (ServerTCPdaytime.run L os fuel self t).2.2
                      (OsCall.accept self.m_socket.getDescriptor)).reason)),
              self,
              (ServerTCPdaytime.run L os fuel self t).2.2
                ++ [Event.sys (OsCall.accept self.m_socket.getDescriptor)
                      (os (ServerTCPdaytime.run L os fuel self t).2.2
                        (OsCall.accept self.m_socket.getDescriptor))]) := by
    intro hnone hfail extra
    rw [ServerTCPdaytime.run_continue L os fuel self t hnone (extra + 1), hself]
    simp [ServerTCPdaytime.run, ServerTCPdaytime.runBody_fail L os self _ hfail]
  have key : ∀ tail : List Event,
      (tail = [] ∨ ∃ rf : OsReply, rf.ret < 0 ∧
        tail = [Event.sys (OsCall.accept self.m_socket.getDescriptor) rf]) →
      (ServerTCPdaytime.run L os fuel self t).2.2 = t ++ (passes.flatten ++ tail) →
      (∀ k : Nat,
        (pendingAccepted
          (((ServerTCPdaytime.run L os fuel self t).2.2.drop t.length).take k)).length ≤ 1) ∧
      (∀ (k : Nat) (e : Event),
        ((ServerTCPdaytime.run L os fuel self t).2.2.drop t.length)[k]? = some e →
        isAcceptCall e = true →
        pendingAccepted (((ServerTCPdaytime.run L os fuel self t).2.2.drop t.length).take k)
          = []) ∧
      pendingAccepted ((ServerTCPdaytime.run L os fuel self t).2.2.drop t.length) = [] ∧
      (closesSucceed ((ServerTCPdaytime.run L os fuel self t).2.2.drop t.length) = true →
        (∀ k : Nat,
          (openAccepted
            (((ServerTCPdaytime.run L os fuel self t).2.2.drop t.length).take k)).length ≤ 1) ∧
        (∀ (k : Nat) (e : Event),
          ((ServerTCPdaytime.run L os fuel self t).2.2.drop t.length)[k]? = some e →
          isAcceptCall e = true →
          openAccepted (((ServerTCPdaytime.run L os fuel self t).2.2.drop t.length).take k)
            = []) ∧
        openAccepted ((ServerTCPdaytime.run L os fuel self t).2.2.drop t.length) = []) := by
    intro tail htail htrace
    obtain ⟨hk, hend⟩ := passes_discipline L self.m_socket.getDescriptor passes hall tail htail
    rw [htrace, List.drop_left]
    refine ⟨fun k => (hk k).1, fun k e he hacc => (hk k).2 e he hacc, hend, ?_⟩
    intro hgood
    refine ⟨fun k => ?_, fun k e he hacc => ?_, ?_⟩
    · rw [openAccepted_eq_pendingAccepted _ (closesSucceed_take _ hgood k)]
      exact (hk k).1
    · rw [openAccepted_eq_pendingAccepted _ (closesSucceed_take _ hgood k)]
      exact (hk k).2 e he hacc
    · rw [openAccepted_eq_pendingAccepted _ hgood]
      exact hend
  rcases hcase with ⟨h1, h2, h3⟩ | ⟨rf, hrf, h1, h3⟩
  · have htrace : (ServerTCPdaytime.run L os fuel self t).2.2 = t ++ (passes.flatten ++ []) := by
      simpa using h3
    obtain ⟨k1, k2, k3, k4⟩ := key [] (Or.inl rfl) htrace
    exact ⟨⟨passes, [], htrace, hself, hall, hlen, Or.inl ⟨h1, h2, rfl⟩⟩, k1, k2, k3, k4, hlive⟩
  · have htrace : (ServerTCPdaytime.run L os fuel self t).2.2
        = t ++ (passes.flatten ++ [Event.sys (OsCall.accept self.m_socket.getDescriptor) rf]) := by
      simpa [List.append_assoc] using h3
    obtain ⟨k1, k2, k3, k4⟩ := key _ (Or.inr ⟨rf, hrf, rfl⟩) htrace
    exact ⟨⟨passes, [Event.sys (OsCall.accept self.m_socket.getDescriptor) rf], htrace, hself,
      hall, hlen, Or.inr ⟨rf, hrf, h1, rfl⟩⟩, k1, k2, k3, k4, hlive⟩

/-- The amended C8 at work: one client is serviced and its `::close` succeeds, so
no accepted descriptor is open afterwards; the loop is still running after that
pass, the next `accept` is interrupted, and one more pass ends `run()` with the
accept error. -/
theorem daytime_run_one_connection_at_a_time_witness :
    closesSucceed ((ServerTCPdaytime.run testLibc osOneClient 2 srv3 tListening).2.2.drop
      tListening.length) = true ∧
    (ServerTCPdaytime.run testLibc osOneClient 1 srv3 tListening).1 = none ∧
    (osOneClient (ServerTCPdaytime.run testLibc osOneClient 1 srv3 tListening).2.2
        (OsCall.accept srv3.m_socket.getDescriptor)).ret < 0 ∧
    ServerTCPdaytime.run testLibc osOneClient 2 srv3 tListening
      = (some (Outcome.throws "TCPServer accept error: Interrupted system call"), srv3,
          tListening ++
            [Event.sys (OsCall.accept 3) (reply 4),
             Event.cout "Connection from 127.0.0.1:0\n",
             Event.sys OsCall.time (reply 739600000),
             Event.sys (OsCall.write 4 "Wed Jun  9 04:26:40 1993\r\n".toList) (reply 0),
             Event.sys (OsCall.close 4) (reply 0),
             Event.cout "Connection serviced.\n",
             Event.sys (OsCall.accept 3) (failure "Interrupted system call")]) ∧
    (∀ k : Nat,
      (openAccepted
        (((ServerTCPdaytime.run testLibc osOneClient 2 srv3 tListening).2.2.drop
          tListening.length).take k)).length ≤ 1) ∧
    openAccepted ((ServerTCPdaytime.run testLibc osOneClient 2 srv3 tListening).2.2.drop
      tListening.length) = [] ∧
    (∀ extra : Nat,
      ServerTCPdaytime.run testLibc osOneClient (1 + (extra + 1)) srv3 tListening
        = (some (Outcome.throws ("TCPServer accept error: "
              ++ (osOneClient (ServerTCPdaytime.run testLibc osOneClient 1 srv3 tListening).2.2
                    (OsCall.accept srv3.m_socket.getDescriptor)).reason)),
            srv3,
            (ServerTCPdaytime.run testLibc osOneClient 1 srv3 tListening).2.2
              ++ [Event.sys (OsCall.accept srv3.m_socket.getDescriptor)
                    (osOneClient (ServerTCPdaytime.run testLibc osOneClient 1 srv3 tListening).2.2
                      (OsCall.accept srv3.m_socket.getDescriptor))])) :=
  ⟨by decide, by decide, by decide, by decide,
    ((daytime_run_one_connection_at_a_time testLibc osOneClient srv3 2 tListening).2.2.2.2.1
      (by decide)).1,
    ((daytime_run_one_connection_at_a_time testLibc osOneClient srv3 2 tListening).2.2.2.2.1
      (by decide)).2.2,
    (daytime_run_one_connection_at_a_time testLibc osOneClient srv3 1 tListening).2.2.2.2.2
      (by decide) (by decide)⟩

/-! ## C9 -/

theorem dateChar_plain (c : Char) (h : (c.isAlphanum || c == ' ' || c == ':') = true) :
    c ≠ NUL ∧ c ≠ '\r' ∧ c ≠ '\n' := by
  refine ⟨?_, ?_, ?_⟩ <;>
  · intro hc
    subst hc
    revert h
    decide

theorem cstr_append_nul (a rest : List Char) (h : ∀ c ∈ a, c ≠ NUL) :
    cstr (a ++ NUL :: rest) = a := by
  induction a with
  | nil => simp [cstr]
  | cons x xs ih =>
    have hx : x ≠ NUL := h x (List.mem_cons_self x xs)
    have hxs := ih (fun c hc => h c (List.mem_cons_of_mem x hc))
    simp only [cstr] at hxs ⊢
    simp [List.takeWhile_cons, hx, hxs]

theorem cstr_of_no_nul (a : List Char) (h : ∀ c ∈ a, c ≠ NUL) : cstr a = a := by
  induction a with
  | nil => simp [cstr]
  | cons x xs ih =>
    have hx : x ≠ NUL := h x (List.mem_cons_self x xs)
    have hxs := ih (fun c hc => h c (List.mem_cons_of_mem x hc))
    simp only [cstr] at hxs ⊢
    simp [List.takeWhile_cons, hx, hxs]

theorem ctimeText_parts (s : List Char) (h : isCtimeText s = true) :
    s.length = 25 ∧ (s.take 24).length = 24 ∧ s = s.take 24 ++ ['\n'] ∧
    (∀ c ∈ s.take 24, c ≠ NUL ∧ c ≠ '\r' ∧ c ≠ '\n') ∧ (∀ c ∈ s, c ≠ NUL) := by
  simp only [isCtimeText, Bool.and_eq_true, beq_iff_eq, List.all_eq_true] at h
  obtain ⟨⟨hlen, hall⟩, hdrop⟩ := h
  have hsplit : s = s.take 24 ++ ['\n'] := by
    conv_lhs => rw [← List.take_append_drop 24 s]
    rw [hdrop]
  have hbody : ∀ c ∈ s.take 24, c ≠ NUL ∧ c ≠ '\r' ∧ c ≠ '\n' :=
    fun c hc => dateChar_plain c (hall c hc)
  refine ⟨hlen, by simp [hlen], hsplit, hbody, ?_⟩
  intro c hc
  rw [hsplit] at hc
  rcases List.mem_append.mp hc with hc | hc
  · exact (hbody c hc).1
  · have : c = '\n' := by simpa using hc
    subst this
    decide

theorem line_of_ctimeText (s : List Char) (h : isCtimeText s = true) :
    snprintf_24s_crlf 64 s = s.take 24 ++ ['\r', '\n', NUL] ∧
    ServerTCPdaytime.line s = s.take 24 ++ ['\r', '\n'] := by
  obtain ⟨_, hlen24, _, hbody, hnonul⟩ := ctimeText_parts s h
  have hbuf : snprintf_24s_crlf 64 s = s.take 24 ++ ['\r', '\n', NUL] := by
    unfold snprintf_24s_crlf
    rw [cstr_of_no_nul s hnonul]
    have hl : (s.take 24 ++ ['\r', '\n']).length ≤ 64 - 1 := by
      rw [List.length_append, hlen24]
      decide
    rw [List.take_of_length_le hl]
    simp
  refine ⟨hbuf, ?_⟩
  have hline : ∀ c ∈ s.take 24 ++ ['\r', '\n'], c ≠ NUL := by
    intro c hc
    rcases List.mem_append.mp hc with hc | hc
    · exact (hbody c hc).1
    · simp only [List.mem_cons, List.mem_singleton, List.mem_nil_iff, or_false] at hc
      rcases hc with rfl | rfl <;> decide
  have hstr : cstr (snprintf_24s_crlf 64 s) = s.take 24 ++ ['\r', '\n'] := by
    rw [hbuf]
    have := cstr_append_nul (s.take 24 ++ ['\r', '\n']) [] hline
    simpa using this
  unfold ServerTCPdaytime.line strlen
  simp only [hstr]
  rw [hbuf]
  have hl2 : (s.take 24 ++ ['\r', '\n']).length = 26 := by
    rw [List.length_append, hlen24]
    rfl
  rw [hl2]
  have : s.take 24 ++ ['\r', '\n', NUL] = (s.take 24 ++ ['\r', '\n']) ++ [NUL] := by simp
  rw [this, List.take_append_eq_append_take, hl2]
  simp [List.take_of_length_le (le_of_eq hl2)]

/-- C9: for a calendar text of the fixed-width form (24 plain characters and a
newline), `snprintf` stores the first 24 characters, CR, LF and the terminator
(27 bytes, so the 64-byte buffer truncates nothing), and the bytes handed to
`::write` are exactly the first 24 characters followed by CR LF: 26 bytes, ending in
CR LF, with no other CR or LF.  These are the bytes of the `write` call of a pass
of `run()` whose clock text is that text. -/
theorem daytime_line_format (s : List Char) (h : isCtimeText s = true) :
    ServerTCPdaytime.line s = s.take 24 ++ ['\r', '\n'] ∧
    (ServerTCPdaytime.line s).length = 26 ∧
    (ServerTCPdaytime.line s).drop 24 = ['\r', '\n'] ∧
    (∀ c ∈ (ServerTCPdaytime.line s).take 24, c ≠ '\r' ∧ c ≠ '\n') ∧
    snprintf_24s_crlf 64 s = s.take 24 ++ ['\r', '\n', NUL] ∧
    (snprintf_24s_crlf 64 s).length = 27 ∧
    ((cstr s).take 24 ++ ['\r', '\n']).length ≤ 64 - 1 ∧
    (∀ (L : Libc) (os : Os) (self : ServerTCP) (t : Trace),
      0 ≤ (os t (OsCall.accept self.m_socket.getDescriptor)).ret →
      ∃ rt rw : OsReply,
        Event.sys OsCall.time rt ∈ (ServerTCPdaytime.runBody L os self t).2.2 ∧
        (L.ctime rt.ret = s →
          Event.sys (OsCall.write (os t (OsCall.accept self.m_socket.getDescriptor)).ret
              (s.take 24 ++ ['\r', '\n'])) rw
            ∈ (ServerTCPdaytime.runBody L os self t).2.2)) := by
  obtain ⟨_, hlen24, _, hbody, hnonul⟩ := ctimeText_parts s h
  obtain ⟨hbuf, hline⟩ := line_of_ctimeText s h
  refine ⟨hline, ?_, ?_, ?_, hbuf, ?_, ?_, ?_⟩
  · rw [hline, List.length_append, hlen24]
    rfl
  · rw [hline, List.drop_append_eq_append_drop, hlen24]
    simp [List.drop_of_length_le (le_of_eq hlen24)]
  · intro c hc
    rw [hline, List.take_append_eq_append_take, hlen24] at hc
    simp only [Nat.sub_self, List.take_zero, List.append_nil] at hc
    have hc2 : c ∈ s.take 24 := List.mem_of_mem_take hc
    exact (hbody c hc2).2
  · rw [hbuf, List.length_append, hlen24]
    rfl
  · rw [cstr_of_no_nul s hnonul, List.length_append, hlen24]
    decide
  · intro L os self t hacc
    obtain ⟨rt, rw, rc, hrun⟩ := ServerTCPdaytime.runBody_ok L os self t hacc
    refine ⟨rt, rw, ?_, ?_⟩
    · rw [hrun]
      simp [passOf]
    · intro hs
      rw [hrun]
      simp [passOf, hs, hline]

/-- C9 at work on the text `"Wed Jun  9 04:26:40 1993\n"`. -/
theorem daytime_line_format_witness :
    isCtimeText "Wed Jun  9 04:26:40 1993\n".toList = true ∧
    ServerTCPdaytime.line "Wed Jun  9 04:26:40 1993\n".toList
      = "Wed Jun  9 04:26:40 1993\r\n".toList ∧
    (ServerTCPdaytime.line "Wed Jun  9 04:26:40 1993\n".toList).length = 26 :=
  ⟨by decide,
    (daytime_line_format "Wed Jun  9 04:26:40 1993\n".toList (by decide)).1,
    (daytime_line_format "Wed Jun  9 04:26:40 1993\n".toList (by decide)).2.1⟩

/-! ## C10 -/

theorem cstr_append_nul_any (a rest : List Char) : cstr (a ++ NUL :: rest) = cstr a := by
  induction a with
  | nil => simp [cstr]
  | cons x xs ih =>
    simp only [cstr] at ih ⊢
    by_cases hx : x = NUL
    · simp [List.takeWhile_cons, hx]
    · simp [List.takeWhile_cons, hx, ih]

theorem set_length_append (a : List Char) (y x : Char) (ys : List Char) :
    (a ++ y :: ys).set a.length x = a ++ x :: ys := by
  induction a with
  | nil => simp
  | cons b bs ih => simp [ih]

theorem getElem?_length_append_char (a : List Char) (x : Char) (ys : List Char) :
    (a ++ x :: ys)[a.length]? = some x := by
  rw [List.getElem?_append_right (le_refl _)]
  simp

/-- C10, as stated, fails: the OS delivers the 5 bytes `a b NUL c d`; the text shown
after the heading is `ab`, not the 5 bytes received. -/
theorem client_run_shows_less_than_received :
    (osReadsNul [] (OsCall.read 3 127)).ret = 5 ∧
    (osReadsNul [] (OsCall.read 3 127)).data = ['a', 'b', NUL, 'c', 'd'] ∧
    (ClientTCPdaytime.run osReadsNul { m_socket := { m_sockfd := 3 } }
        (List.replicate 128 'x') []).map Prod.snd
      = some [Event.sys (OsCall.read 3 127) (osReadsNul [] (OsCall.read 3 127)),
              Event.cout "Daytime server response: ab"] := by
  decide

/-- C10 (amended): `run()` makes exactly one `read`, on the client's descriptor,
asking for 127 bytes of its 128-byte buffer.  For a read result `n` with
`0 <= n <= 127` (the OS having stored `n` bytes) the terminator is stored at index
`n`, inside the buffer, after the `n` bytes received, and the text shown after the
heading is the received bytes up to their first NUL byte: all `n` bytes when none
of them is NUL.  For a negative result it prints `read error` to `std::cerr` and
returns with the buffer untouched and nothing shown. -/
theorem client_run_single_read (os : Os) (self : ClientTCP) (recvline : List Char)
    (t : Trace) (hlen : recvline.length = 128) :
    ((os t (OsCall.read self.m_socket.getDescriptor 127)).ret < 0 →
      ClientTCPdaytime.run os self recvline t
        = some (recvline,
            t ++ [Event.sys (OsCall.read self.m_socket.getDescriptor 127)
                    (os t (OsCall.read self.m_socket.getDescriptor 127)),
                  Event.cerr "read error\n"])) ∧
    (0 ≤ (os t (OsCall.read self.m_socket.getDescriptor 127)).ret →
      (os t (OsCall.read self.m_socket.getDescriptor 127)).ret ≤ 127 →
      (os t (OsCall.read self.m_socket.getDescriptor 127)).data.length
        = (os t (OsCall.read self.m_socket.getDescriptor 127)).ret.toNat →
      ∃ buf : List Char,
        ClientTCPdaytime.run os self recvline t
          = some (buf,
              t ++ [Event.sys (OsCall.read self.m_socket.getDescriptor 127)
                      (os t (OsCall.read self.m_socket.getDescriptor 127)),
                    Event.cout ("Daytime server response: "
                      ++ String.mk (cstr (os t (OsCall.read self.m_socket.getDescriptor 127)).data))]) ∧
        buf.length = 128 ∧
        (os t (OsCall.read self.m_socket.getDescriptor 127)).ret.toNat < 128 ∧
        buf[(os t (OsCall.read self.m_socket.getDescriptor 127)).ret.toNat]? = some NUL ∧
        buf.take (os t (OsCall.read self.m_socket.getDescriptor 127)).ret.toNat
          = (os t (OsCall.read self.m_socket.getDescriptor 127)).data ∧
        (NUL ∉ (os t (OsCall.read self.m_socket.getDescriptor 127)).data →
          cstr (os t (OsCall.read self.m_socket.getDescriptor 127)).data
            = (os t (OsCall.read self.m_socket.getDescriptor 127)).data)) := by
  generalize hr : os t (OsCall.read self.m_socket.getDescriptor 127) = r
  refine ⟨?_, ?_⟩
  · intro hneg
    simp [ClientTCPdaytime.run, syscall, hr, hneg]
  · intro h0 h127 hdata
    have hn : r.ret.toNat < 128 := by omega
    have htake : r.data.take r.ret.toNat = r.data :=
      List.take_of_length_le (le_of_eq hdata)
    have hdrop : ∃ y ys, recvline.drop r.data.length = y :: ys ∧ ys.length = 127 - r.data.length := by
      cases hd : recvline.drop r.data.length with
      | nil =>
        have := congrArg List.length hd
        simp only [List.length_drop, List.length_nil] at this
        omega
      | cons y ys =>
        refine ⟨y, ys, rfl, ?_⟩
        have := congrArg List.length hd
        simp only [List.length_drop, List.length_cons] at this
        omega
    obtain ⟨y, ys, hys, hyslen⟩ := hdrop
    have hset : (r.data ++ recvline.drop r.data.length).set r.ret.toNat NUL
        = r.data ++ NUL :: ys := by
      rw [hys, ← hdata]
      exact set_length_append r.data y NUL ys
    refine ⟨r.data ++ NUL :: ys, ?_, ?_, hn, ?_, ?_, ?_⟩
    · simp [ClientTCPdaytime.run, syscall, hr, not_lt.mpr h0, hn, htake, hset,
        cstr_append_nul_any]
    · simp only [List.length_append, List.length_cons]
      omega
    · rw [← hdata]
      exact getElem?_length_append_char r.data NUL ys
    · rw [← hdata]
      simp
    · intro hnul
      exact cstr_of_no_nul r.data (fun c hc hcn => hnul (hcn ▸ hc))

/-- The amended C10 at work: the OS delivers the 26 bytes of a daytime line. -/
theorem client_run_single_read_witness :
    (List.replicate 128 'x').length = 128 ∧
    0 ≤ (osReadsLine [] (OsCall.read 3 127)).ret ∧
    (osReadsLine [] (OsCall.read 3 127)).ret ≤ 127 ∧
    (osReadsLine [] (OsCall.read 3 127)).data.length
      = (osReadsLine [] (OsCall.read 3 127)).ret.toNat ∧
    (ClientTCPdaytime.run osReadFails { m_socket := { m_sockfd := 3 } }
        (List.replicate 128 'x') []
      = some (List.replicate 128 'x',
          [] ++ [Event.sys (OsCall.read 3 127) (osReadFails [] (OsCall.read 3 127)),
                 Event.cerr "read error\n"])) ∧
    ∃ buf : List Char,
      ClientTCPdaytime.run osReadsLine { m_socket := { m_sockfd := 3 } }
          (List.replicate 128 'x') []
        = some (buf,
            [] ++ [Event.sys (OsCall.read 3 127) (osReadsLine [] (OsCall.read 3 127)),
                   Event.cout ("Daytime server response: "
                     ++ String.mk (cstr (osReadsLine [] (OsCall.read 3 127)).data))]) ∧
      buf.length = 128 ∧
      (osReadsLine [] (OsCall.read 3 127)).ret.toNat < 128 ∧
      buf[(osReadsLine [] (OsCall.read 3 127)).ret.toNat]? = some NUL ∧
      buf.take (osReadsLine [] (OsCall.read 3 127)).ret.toNat
        = (osReadsLine [] (OsCall.read 3 127)).data ∧
      (NUL ∉ (osReadsLine [] (OsCall.read 3 127)).data →
        cstr (osReadsLine [] (OsCall.read 3 127)).data
          = (osReadsLine [] (OsCall.read 3 127)).data) :=
  ⟨by simp, by decide, by decide, by decide,
    (client_run_single_read osReadFails { m_socket := { m_sockfd := 3 } }
      (List.replicate 128 'x') [] (by simp)).1 (by decide),
    (client_run_single_read osReadsLine { m_socket := { m_sockfd := 3 } }
      (List.replicate 128 'x') [] (by simp)).2 (by decide) (by decide) (by decide)⟩

end bh
